import Mathlib

/-!
Shallow embedding of `src/model.py`: a RAW-image denoising U-Net (`SimpleNet`)
built from depthwise-separable convolution blocks.

Tensors are modelled as (batch, channel, height, width)-shaped arrays of
rationals with a total `data` function; entries outside the shape are padding
and irrelevant to the claims.  Each PyTorch module becomes a structure holding
its hyperparameters and weights, an `init` function translated from the
module's `__init__` (PyTorch default arguments written out explicitly at every
call site: `CovSepBlock` defaults are kernel 5, stride 1, padding 0), and a
`forward` function translated from the module's `forward`.
-/

/-- A 4-d tensor (batch, channel, height, width) with rational entries.
`data` is total; entries outside the shape are irrelevant. -/
@[ext]
structure Tensor where
  b : ℕ
  c : ℕ
  h : ℕ
  w : ℕ
  data : ℕ → ℕ → ℕ → ℕ → ℚ

/-- PyTorch `Conv2d` output spatial size: `(n + 2p - k) / s + 1` (floor). -/
def convOutDim (n k s p : ℕ) : ℕ := (n + 2 * p - k) / s + 1

/-- Zero-padded read of a tensor entry at possibly out-of-range integer
spatial coordinates. -/
def Tensor.padAt (t : Tensor) (bb cc : ℕ) (i j : ℤ) : ℚ :=
  if 0 ≤ i ∧ i < (t.h : ℤ) ∧ 0 ≤ j ∧ j < (t.w : ℤ) then
    t.data bb cc i.toNat j.toNat
  else 0

/-- `torch.nn.Conv2d` with square kernel, equal stride/padding in both spatial
directions, and `groups` support; `bias` is the (possibly zero) bias vector. -/
structure Conv2d where
  inC : ℕ
  outC : ℕ
  k : ℕ
  s : ℕ
  p : ℕ
  groups : ℕ
  weight : ℕ → ℕ → ℕ → ℕ → ℚ
  bias : ℕ → ℚ

/-- Forward evaluation of `Conv2d`: cross-correlation with zero padding,
grouped channels, plus bias. -/
def Conv2d.forward (cv : Conv2d) (x : Tensor) : Tensor :=
  { b := x.b
    c := cv.outC
    h := convOutDim x.h cv.k cv.s cv.p
    w := convOutDim x.w cv.k cv.s cv.p
    data := fun bb oc i j =>
      cv.bias oc +
        ∑ ic ∈ Finset.range (cv.inC / cv.groups), ∑ kh ∈ Finset.range cv.k,
          ∑ kw ∈ Finset.range cv.k,
            cv.weight oc ic kh kw *
              x.padAt bb (oc / (cv.outC / cv.groups) * (cv.inC / cv.groups) + ic)
                ((i * cv.s + kh : ℤ) - (cv.p : ℤ)) ((j * cv.s + kw : ℤ) - (cv.p : ℤ)) }

/-- `torch.nn.ConvTranspose2d` with square kernel and no padding. -/
structure ConvTranspose2d where
  inC : ℕ
  outC : ℕ
  k : ℕ
  s : ℕ
  weight : ℕ → ℕ → ℕ → ℕ → ℚ
  bias : ℕ → ℚ

/-- Forward evaluation of `ConvTranspose2d` (stride `s`, kernel `k`, no
padding): output spatial size `(n-1)*s + k`, written `n*s + k - s` so the
formula is also meaningful at `n = 0`. -/
def ConvTranspose2d.forward (cv : ConvTranspose2d) (x : Tensor) : Tensor :=
  { b := x.b
    c := cv.outC
    h := x.h * cv.s + cv.k - cv.s
    w := x.w * cv.s + cv.k - cv.s
    data := fun bb oc i j =>
      cv.bias oc +
        ∑ ic ∈ Finset.range cv.inC, ∑ kh ∈ Finset.range cv.k, ∑ kw ∈ Finset.range cv.k,
          if kh ≤ i ∧ (i - kh) % cv.s = 0 ∧ (i - kh) / cv.s < x.h ∧
             kw ≤ j ∧ (j - kw) % cv.s = 0 ∧ (j - kw) / cv.s < x.w then
            cv.weight ic oc kh kw * x.data bb ic ((i - kh) / cv.s) ((j - kw) / cv.s)
          else 0 }

/-- `torch.nn.ReLU` as a pure tensor function (elementwise `max 0`). -/
def reluT (t : Tensor) : Tensor :=
  { t with data := fun bb cc i j => max 0 (t.data bb cc i j) }

/-- Elementwise tensor addition (`x + y` / `x += y`); the result carries the
left operand's shape (all uses in the model add equal-shaped tensors). -/
def addT (x y : Tensor) : Tensor :=
  { b := x.b, c := x.c, h := x.h, w := x.w
    data := fun bb cc i j => x.data bb cc i j + y.data bb cc i j }

/-- `DepthwiseConv(in_channels, kernel_size, stride, padding)`:
`Conv2d(inC, inC, k, s, p, groups=inC, bias=False)` (model.py lines 5-7). -/
def DepthwiseConv (inC k s p : ℕ) (w : ℕ → ℕ → ℕ → ℕ → ℚ) : Conv2d :=
  ⟨inC, inC, k, s, p, inC, w, fun _ => 0⟩

/-- `PointwiseConv(in_channels, out_channels)`:
`Conv2d(inC, outC, kernel_size=1, padding=0, bias=True)` (model.py 10-11). -/
def PointwiseConv (inC outC : ℕ) (w : ℕ → ℕ → ℕ → ℕ → ℚ) (bias : ℕ → ℚ) : Conv2d :=
  ⟨inC, outC, 1, 1, 0, 1, w, bias⟩

/-- Learnable weights of one `CovSepBlock`: depthwise weight, pointwise
weight, pointwise bias. -/
structure CovSepW where
  dw : ℕ → ℕ → ℕ → ℕ → ℚ
  pw : ℕ → ℕ → ℕ → ℕ → ℚ
  pb : ℕ → ℚ

/-- All weights and biases of a `CovSepW` bundle are zero. -/
def CovSepW.IsZero (cw : CovSepW) : Prop :=
  (∀ a b g d, cw.dw a b g d = 0) ∧ (∀ a b g d, cw.pw a b g d = 0) ∧ (∀ a, cw.pb a = 0)

/-- `CovSepBlock`: a depthwise conv followed by a pointwise conv. -/
structure CovSepBlock where
  dc : Conv2d
  pc : Conv2d

/-- `CovSepBlock.__init__(in_channels, out_channels, kernel_size, stride,
padding)` (model.py 14-18). -/
def CovSepBlock.init (inC outC : ℕ) (cw : CovSepW) (k s p : ℕ) : CovSepBlock :=
  ⟨DepthwiseConv inC k s p cw.dw, PointwiseConv inC outC cw.pw cw.pb⟩

/-- `CovSepBlock.forward` (model.py 20-23): depthwise then pointwise. -/
def CovSepBlock.forward (cb : CovSepBlock) (x : Tensor) : Tensor :=
  cb.pc.forward (cb.dc.forward x)

/-- Weights of an `Encoder`: the two separable-conv sub-paths and the
(possibly unused) projection block. -/
structure EncoderW where
  w1 : CovSepW
  w2 : CovSepW
  wp : CovSepW

/-- `Encoder` module: two separable convs around a ReLU with a shortcut. -/
structure Encoder where
  sepconv : CovSepBlock
  sepconv2 : CovSepBlock
  proj : Option CovSepBlock

/-- `Encoder.__init__(in_channels, out_channels)` (model.py 27-34):
bottleneck `out_channels // 4`; projection only when channel counts differ. -/
def Encoder.init (inC outC : ℕ) (we : EncoderW) : Encoder :=
  { sepconv := CovSepBlock.init inC (outC / 4) we.w1 5 1 2
    sepconv2 := CovSepBlock.init (outC / 4) outC we.w2 5 1 2
    proj := if inC ≠ outC then some (CovSepBlock.init inC outC we.wp 3 1 1) else none }

/-- `Encoder.forward` (model.py 36-45). -/
def Encoder.forward (e : Encoder) (x : Tensor) : Tensor :=
  let branch := match e.proj with
    | some pr => pr.forward x
    | none => x
  reluT (addT (e.sepconv2.forward (reluT (e.sepconv.forward x))) branch)

/-- Weights of an `Upsampling` block: transposed-conv weight and bias. -/
structure UpW where
  w : ℕ → ℕ → ℕ → ℕ → ℚ
  bias : ℕ → ℚ

/-- `Upsampling` module: one transposed convolution. -/
structure Upsampling where
  upsample : ConvTranspose2d

/-- `Upsampling.__init__(in_channels, out_channels, kernel_size=2)`
(model.py 49-51): `ConvTranspose2d(inC, outC, kernel_size=2, stride=2)`. -/
def Upsampling.init (inC outC : ℕ) (wu : UpW) : Upsampling :=
  ⟨⟨inC, outC, 2, 2, wu.w, wu.bias⟩⟩

/-- `Upsampling.forward` (model.py 53-54). -/
def Upsampling.forward (u : Upsampling) (x : Tensor) : Tensor :=
  u.upsample.forward x

/-- Weights of a `Downsampling` block. -/
structure DownW where
  w1 : CovSepW
  w2 : CovSepW
  wb : CovSepW

/-- `Downsampling` module: strided main path plus strided branch conv. -/
structure Downsampling where
  sepconv : CovSepBlock
  sepconv2 : CovSepBlock
  branchconv : CovSepBlock

/-- `Downsampling.__init__(in_channels, out_channels)` (model.py 58-64). -/
def Downsampling.init (inC outC : ℕ) (wd : DownW) : Downsampling :=
  { sepconv := CovSepBlock.init inC (outC / 4) wd.w1 5 2 2
    sepconv2 := CovSepBlock.init (outC / 4) outC wd.w2 5 1 2
    branchconv := CovSepBlock.init inC outC wd.wb 3 2 1 }

/-- `Downsampling.forward` (model.py 66-72): main path plus branch path. -/
def Downsampling.forward (d : Downsampling) (x : Tensor) : Tensor :=
  addT (d.sepconv2.forward (reluT (d.sepconv.forward x))) (d.branchconv.forward x)

/-- Weights of a `Decoder` block. -/
structure DecW where
  w1 : CovSepW
  w2 : CovSepW

/-- `Decoder` module: two separable convs with an identity shortcut. -/
structure Decoder where
  sepconv : CovSepBlock
  sepconv2 : CovSepBlock

/-- `Decoder.__init__(in_channels, out_channels)` (model.py 76-81). -/
def Decoder.init (inC outC : ℕ) (wd : DecW) : Decoder :=
  { sepconv := CovSepBlock.init inC outC wd.w1 3 1 1
    sepconv2 := CovSepBlock.init outC outC wd.w2 3 1 1 }

/-- `Decoder.forward` (model.py 83-88). -/
def Decoder.forward (d : Decoder) (x : Tensor) : Tensor :=
  addT (d.sepconv2.forward (reluT (d.sepconv.forward x))) x

/-- Weights of an `EncoderStage`: one `Encoder` weight bundle (the stage owns
a single `Encoder` instance) and one `Downsampling` weight bundle. -/
structure StageW where
  e : EncoderW
  d : DownW

/-- `EncoderStage` module: one `Downsampling`, one `Encoder`, a repeat count. -/
structure EncoderStage where
  encoder : Encoder
  downsampling : Downsampling
  num : ℕ

/-- `EncoderStage.__init__(in_channels, out_channels, num_encoder)`
(model.py 92-96): a single `Encoder(out, out)` and a `Downsampling(in, out)`. -/
def EncoderStage.init (inC outC numEncoder : ℕ) (ws : StageW) : EncoderStage :=
  { encoder := Encoder.init outC outC ws.e
    downsampling := Downsampling.init inC outC ws.d
    num := numEncoder }

/-- The Python loop `for _ in range(n): x = self.encoder(x)`
(model.py 100-101): apply `e.forward` `n` times. -/
def encLoop (e : Encoder) : ℕ → Tensor → Tensor
  | 0, x => x
  | n + 1, x => encLoop e n (e.forward x)

/-- The `Encoder` instance applied at loop iteration `i` of
`EncoderStage.forward` (model.py 100-101): every iteration applies the one
shared `self.encoder`. -/
def EncoderStage.appliedEncoder (st : EncoderStage) (_i : ℕ) : Encoder :=
  st.encoder

/-- `EncoderStage.forward` (model.py 98-102). -/
def EncoderStage.forward (st : EncoderStage) (x : Tensor) : Tensor :=
  encLoop st.encoder st.num (st.downsampling.forward x)

/-- Weights of a `DecoderStage`. -/
structure DecStageW where
  d : DecW
  u : UpW
  s : CovSepW

/-- `DecoderStage` module. -/
structure DecoderStage where
  decoder : Decoder
  upsampling : Upsampling
  skipconnect : CovSepBlock

/-- `DecoderStage.__init__(in_channels, out_channels, skip_in_channels)`
(model.py 106-111). -/
def DecoderStage.init (inC outC skipInC : ℕ) (ws : DecStageW) : DecoderStage :=
  { decoder := Decoder.init inC inC ws.d
    upsampling := Upsampling.init inC outC ws.u
    skipconnect := CovSepBlock.init skipInC outC ws.s 3 1 1 }

/-- `DecoderStage.forward` (model.py 113-120): decode + upsample the main
input, separably convolve + ReLU the skip input, then add. -/
def DecoderStage.forward (st : DecoderStage) (input skip : Tensor) : Tensor :=
  addT (st.upsampling.forward (st.decoder.forward input))
    (reluT (st.skipconnect.forward skip))

/-- Weights of a plain `Conv2d` layer (stem and output convolutions). -/
structure ConvW where
  w : ℕ → ℕ → ℕ → ℕ → ℚ
  bias : ℕ → ℚ

/-- All weights and biases of a `ConvW` bundle are zero. -/
def ConvW.IsZero (cw : ConvW) : Prop :=
  (∀ a b g d, cw.w a b g d = 0) ∧ (∀ a, cw.bias a = 0)

/-- The full weight set of `SimpleNet`. -/
structure SimpleNetW where
  conv : ConvW
  st1 : StageW
  st2 : StageW
  st3 : StageW
  st4 : StageW
  ds1 : DecStageW
  ds2 : DecStageW
  ds3 : DecStageW
  ds4 : DecStageW
  outDec : DecW
  outConv : ConvW

/-- `SimpleNet` module: stem conv, four encoder stages, four decoder stages,
and the output head `Sequential(Decoder(16,16), Conv2d(16,4,k3,p1))` split
into its two sequentially applied members. -/
structure SimpleNet where
  conv : Conv2d
  encoder_stage1 : EncoderStage
  encoder_stage2 : EncoderStage
  encoder_stage3 : EncoderStage
  encoder_stage4 : EncoderStage
  decoder_stage1 : DecoderStage
  decoder_stage2 : DecoderStage
  decoder_stage3 : DecoderStage
  decoder_stage4 : DecoderStage
  output_decoder : Decoder
  output_conv : Conv2d

/-- `SimpleNet.__init__` (model.py 124-138) with its fixed channel plan. -/
def SimpleNet.init (w : SimpleNetW) : SimpleNet :=
  { conv := ⟨4, 16, 3, 1, 1, 1, w.conv.w, w.conv.bias⟩
    encoder_stage1 := EncoderStage.init 16 64 1 w.st1
    encoder_stage2 := EncoderStage.init 64 128 1 w.st2
    encoder_stage3 := EncoderStage.init 128 256 3 w.st3
    encoder_stage4 := EncoderStage.init 256 512 3 w.st4
    decoder_stage1 := DecoderStage.init 512 64 256 w.ds1
    decoder_stage2 := DecoderStage.init 64 32 128 w.ds2
    decoder_stage3 := DecoderStage.init 32 32 64 w.ds3
    decoder_stage4 := DecoderStage.init 32 16 16 w.ds4
    output_decoder := Decoder.init 16 16 w.outDec
    output_conv := ⟨16, 4, 3, 1, 1, 1, w.outConv.w, w.outConv.bias⟩ }

/-- `pre` in `SimpleNet.forward` (model.py 142-143): stem conv + ReLU. -/
def SimpleNet.pre (n : SimpleNet) (img : Tensor) : Tensor :=
  reluT (n.conv.forward img)

/-- `first` in `SimpleNet.forward` (model.py 145). -/
def SimpleNet.first (n : SimpleNet) (img : Tensor) : Tensor :=
  n.encoder_stage1.forward (n.pre img)

/-- `second` in `SimpleNet.forward` (model.py 147). -/
def SimpleNet.second (n : SimpleNet) (img : Tensor) : Tensor :=
  n.encoder_stage2.forward (n.first img)

/-- `third` in `SimpleNet.forward` (model.py 149). -/
def SimpleNet.third (n : SimpleNet) (img : Tensor) : Tensor :=
  n.encoder_stage3.forward (n.second img)

/-- `fourth` in `SimpleNet.forward` (model.py 151). -/
def SimpleNet.fourth (n : SimpleNet) (img : Tensor) : Tensor :=
  n.encoder_stage4.forward (n.third img)

/-- `de_first` in `SimpleNet.forward` (model.py 153). -/
def SimpleNet.deFirst (n : SimpleNet) (img : Tensor) : Tensor :=
  n.decoder_stage1.forward (n.fourth img) (n.third img)

/-- `de_second` in `SimpleNet.forward` (model.py 155). -/
def SimpleNet.deSecond (n : SimpleNet) (img : Tensor) : Tensor :=
  n.decoder_stage2.forward (n.deFirst img) (n.second img)

/-- `de_thrid` in `SimpleNet.forward` (model.py 157). -/
def SimpleNet.deThird (n : SimpleNet) (img : Tensor) : Tensor :=
  n.decoder_stage3.forward (n.deSecond img) (n.first img)

/-- `de_fourth` in `SimpleNet.forward` (model.py 159). -/
def SimpleNet.deFourth (n : SimpleNet) (img : Tensor) : Tensor :=
  n.decoder_stage4.forward (n.deThird img) (n.pre img)

/-- `output` in `SimpleNet.forward` (model.py 161): the output head applies
the `Decoder(16,16)` then the `Conv2d(16,4)` of the `Sequential`. -/
def SimpleNet.outputT (n : SimpleNet) (img : Tensor) : Tensor :=
  n.output_conv.forward (n.output_decoder.forward (n.deFourth img))

/-- `SimpleNet.forward` (model.py 140-163): global residual `output + img`. -/
def SimpleNet.forward (n : SimpleNet) (img : Tensor) : Tensor :=
  addT (n.outputT img) img

/-- The conjunction of all `assert` conditions in `SimpleNet.forward`
(model.py 141-162): channel counts at every checkpoint. -/
def SimpleNet.assertsHold (n : SimpleNet) (img : Tensor) : Prop :=
  img.c = 4 ∧ (n.pre img).c = 16 ∧ (n.first img).c = 64 ∧ (n.second img).c = 128 ∧
    (n.third img).c = 256 ∧ (n.fourth img).c = 512 ∧ (n.deFirst img).c = 64 ∧
    (n.deSecond img).c = 32 ∧ (n.deThird img).c = 32 ∧ (n.deFourth img).c = 16 ∧
    (n.outputT img).c = 4

/-! ### Shape projection lemmas -/

@[simp] lemma Conv2d.forward_b (cv : Conv2d) (x : Tensor) : (cv.forward x).b = x.b := rfl

@[simp] lemma Conv2d.forward_c (cv : Conv2d) (x : Tensor) : (cv.forward x).c = cv.outC := rfl

@[simp] lemma Conv2d.forward_h (cv : Conv2d) (x : Tensor) :
    (cv.forward x).h = convOutDim x.h cv.k cv.s cv.p := rfl

@[simp] lemma Conv2d.forward_w (cv : Conv2d) (x : Tensor) :
    (cv.forward x).w = convOutDim x.w cv.k cv.s cv.p := rfl

@[simp] lemma reluT_b (t : Tensor) : (reluT t).b = t.b := rfl

@[simp] lemma reluT_c (t : Tensor) : (reluT t).c = t.c := rfl

@[simp] lemma reluT_h (t : Tensor) : (reluT t).h = t.h := rfl

@[simp] lemma reluT_w (t : Tensor) : (reluT t).w = t.w := rfl

@[simp] lemma addT_b (x y : Tensor) : (addT x y).b = x.b := rfl

@[simp] lemma addT_c (x y : Tensor) : (addT x y).c = x.c := rfl

@[simp] lemma addT_h (x y : Tensor) : (addT x y).h = x.h := rfl

@[simp] lemma addT_w (x y : Tensor) : (addT x y).w = x.w := rfl

/-- The pointwise (1×1, stride 1, pad 0) spatial map is the identity on
positive sizes, and `convOutDim` is always positive. -/
lemma convOutDim_pos (n k s p : ℕ) : 1 ≤ convOutDim n k s p :=
  Nat.succ_le_succ (Nat.zero_le _)

lemma convOutDim_one (n : ℕ) (hn : 1 ≤ n) : convOutDim n 1 1 0 = n := by
  unfold convOutDim; omega

@[simp] lemma CovSepBlock.init_forward_b (inC outC : ℕ) (cw : CovSepW) (k s p : ℕ)
    (x : Tensor) : ((CovSepBlock.init inC outC cw k s p).forward x).b = x.b := rfl

@[simp] lemma CovSepBlock.init_forward_c (inC outC : ℕ) (cw : CovSepW) (k s p : ℕ)
    (x : Tensor) : ((CovSepBlock.init inC outC cw k s p).forward x).c = outC := rfl

@[simp] lemma CovSepBlock.init_forward_h (inC outC : ℕ) (cw : CovSepW) (k s p : ℕ)
    (x : Tensor) :
    ((CovSepBlock.init inC outC cw k s p).forward x).h = convOutDim x.h k s p := by
  show convOutDim (convOutDim x.h k s p) 1 1 0 = convOutDim x.h k s p
  exact convOutDim_one _ (convOutDim_pos _ _ _ _)

@[simp] lemma CovSepBlock.init_forward_w (inC outC : ℕ) (cw : CovSepW) (k s p : ℕ)
    (x : Tensor) :
    ((CovSepBlock.init inC outC cw k s p).forward x).w = convOutDim x.w k s p := by
  show convOutDim (convOutDim x.w k s p) 1 1 0 = convOutDim x.w k s p
  exact convOutDim_one _ (convOutDim_pos _ _ _ _)

/-! ### Spatial arithmetic of the kernel/stride/padding combinations used -/

lemma convOutDim_3_1_1 (n : ℕ) (hn : 1 ≤ n) : convOutDim n 3 1 1 = n := by
  unfold convOutDim; omega

lemma convOutDim_5_1_2 (n : ℕ) (hn : 1 ≤ n) : convOutDim n 5 1 2 = n := by
  unfold convOutDim; omega

lemma convOutDim_5_2_2 (n : ℕ) (h2 : 2 ∣ n) (hn : 2 ≤ n) : convOutDim n 5 2 2 = n / 2 := by
  unfold convOutDim; omega

lemma convOutDim_3_2_1 (n : ℕ) (h2 : 2 ∣ n) (hn : 2 ≤ n) : convOutDim n 3 2 1 = n / 2 := by
  unfold convOutDim; omega

/-! ### Block-level shape lemmas -/

/-- `Encoder` preserves batch and spatial dimensions (positive sizes) and
outputs its constructed `out_channels`. -/
lemma Encoder.init_forward_shape_enc (inC outC : ℕ) (we : EncoderW) (x : Tensor)
    (hh : 1 ≤ x.h) (hw : 1 ≤ x.w) :
    ((Encoder.init inC outC we).forward x).b = x.b ∧
      ((Encoder.init inC outC we).forward x).c = outC ∧
      ((Encoder.init inC outC we).forward x).h = x.h ∧
      ((Encoder.init inC outC we).forward x).w = x.w := by
  simp [Encoder.forward, Encoder.init, convOutDim_5_1_2, hh, hw]

/-- `Downsampling` halves positive even spatial dimensions and outputs its
constructed `out_channels`. -/
lemma Downsampling.init_forward_shape_down (inC outC : ℕ) (wd : DownW) (x : Tensor)
    (hh2 : 2 ∣ x.h) (hw2 : 2 ∣ x.w) (hh : 2 ≤ x.h) (hw : 2 ≤ x.w) :
    ((Downsampling.init inC outC wd).forward x).b = x.b ∧
      ((Downsampling.init inC outC wd).forward x).c = outC ∧
      ((Downsampling.init inC outC wd).forward x).h = x.h / 2 ∧
      ((Downsampling.init inC outC wd).forward x).w = x.w / 2 := by
  have h1 : 1 ≤ x.h / 2 := by omega
  have w1 : 1 ≤ x.w / 2 := by omega
  simp [Downsampling.forward, Downsampling.init, convOutDim_5_2_2, convOutDim_5_1_2,
    hh2, hw2, hh, hw, h1, w1]

/-- `Decoder` preserves batch and positive spatial dimensions and outputs its
constructed `out_channels`. -/
lemma Decoder.init_forward_shape_dec (inC outC : ℕ) (wd : DecW) (x : Tensor)
    (hh : 1 ≤ x.h) (hw : 1 ≤ x.w) :
    ((Decoder.init inC outC wd).forward x).b = x.b ∧
      ((Decoder.init inC outC wd).forward x).c = outC ∧
      ((Decoder.init inC outC wd).forward x).h = x.h ∧
      ((Decoder.init inC outC wd).forward x).w = x.w := by
  simp [Decoder.forward, Decoder.init, convOutDim_3_1_1, hh, hw]

/-- `Upsampling` doubles spatial dimensions and outputs its constructed
`out_channels`. -/
lemma Upsampling.init_forward_shape_up (inC outC : ℕ) (wu : UpW) (x : Tensor) :
    ((Upsampling.init inC outC wu).forward x).b = x.b ∧
      ((Upsampling.init inC outC wu).forward x).c = outC ∧
      ((Upsampling.init inC outC wu).forward x).h = 2 * x.h ∧
      ((Upsampling.init inC outC wu).forward x).w = 2 * x.w := by
  refine ⟨rfl, rfl, ?_, ?_⟩ <;>
    · show _ * 2 + 2 - 2 = 2 * _
      omega

/-- The encoder loop of `EncoderStage.forward` preserves the shape
`(b, outC, h, w)` of its input (positive sizes). -/
lemma encLoop_shape (outC : ℕ) (we : EncoderW) (nIter : ℕ) (y : Tensor)
    (hc : y.c = outC) (hh : 1 ≤ y.h) (hw : 1 ≤ y.w) :
    (encLoop (Encoder.init outC outC we) nIter y).b = y.b ∧
      (encLoop (Encoder.init outC outC we) nIter y).c = outC ∧
      (encLoop (Encoder.init outC outC we) nIter y).h = y.h ∧
      (encLoop (Encoder.init outC outC we) nIter y).w = y.w := by
  induction nIter generalizing y with
  | zero => exact ⟨rfl, hc, rfl, rfl⟩
  | succ n ih =>
    obtain ⟨eb, ec, eh, ew⟩ := Encoder.init_forward_shape_enc outC outC we y hh hw
    obtain ⟨b', c', h', w'⟩ := ih ((Encoder.init outC outC we).forward y) ec
      (by omega) (by omega)
    exact ⟨by rw [encLoop, b', eb], by rw [encLoop, c'],
      by rw [encLoop, h', eh], by rw [encLoop, w', ew]⟩

/-- `EncoderStage` halves positive even spatial dimensions and outputs its
constructed `out_channels`. -/
lemma EncoderStage.init_forward_shape_encstage (inC outC numEncoder : ℕ) (ws : StageW)
    (x : Tensor) (hh2 : 2 ∣ x.h) (hw2 : 2 ∣ x.w) (hh : 2 ≤ x.h) (hw : 2 ≤ x.w) :
    ((EncoderStage.init inC outC numEncoder ws).forward x).b = x.b ∧
      ((EncoderStage.init inC outC numEncoder ws).forward x).c = outC ∧
      ((EncoderStage.init inC outC numEncoder ws).forward x).h = x.h / 2 ∧
      ((EncoderStage.init inC outC numEncoder ws).forward x).w = x.w / 2 := by
  obtain ⟨db, dc', dh, dw'⟩ := Downsampling.init_forward_shape_down inC outC ws.d x hh2 hw2 hh hw
  obtain ⟨lb, lc, lh, lw⟩ := encLoop_shape outC ws.e numEncoder
    ((Downsampling.init inC outC ws.d).forward x) dc' (by omega) (by omega)
  exact ⟨by rw [EncoderStage.forward, EncoderStage.init] at *; rw [lb, db],
    by rw [EncoderStage.forward, EncoderStage.init] at *; rw [lc],
    by rw [EncoderStage.forward, EncoderStage.init] at *; rw [lh, dh],
    by rw [EncoderStage.forward, EncoderStage.init] at *; rw [lw, dw']⟩

/-- `DecoderStage` doubles the main input's positive spatial dimensions and
outputs its constructed `out_channels`. -/
lemma DecoderStage.init_forward_shape_decstage (inC outC skipInC : ℕ) (ws : DecStageW)
    (input skip : Tensor) (hh : 1 ≤ input.h) (hw : 1 ≤ input.w) :
    ((DecoderStage.init inC outC skipInC ws).forward input skip).b = input.b ∧
      ((DecoderStage.init inC outC skipInC ws).forward input skip).c = outC ∧
      ((DecoderStage.init inC outC skipInC ws).forward input skip).h = 2 * input.h ∧
      ((DecoderStage.init inC outC skipInC ws).forward input skip).w = 2 * input.w := by
  obtain ⟨db, dc', dh, dw'⟩ := Decoder.init_forward_shape_dec inC inC ws.d input hh hw
  obtain ⟨ub, uc, uh, uw⟩ := Upsampling.init_forward_shape_up inC outC ws.u
    ((Decoder.init inC inC ws.d).forward input)
  have key : (DecoderStage.init inC outC skipInC ws).forward input skip =
      addT ((Upsampling.init inC outC ws.u).forward ((Decoder.init inC inC ws.d).forward input))
        (reluT ((CovSepBlock.init skipInC outC ws.s 3 1 1).forward skip)) := rfl
  rw [key]
  exact ⟨by rw [addT_b, ub, db], by rw [addT_c, uc], by rw [addT_h, uh, dh],
    by rw [addT_w, uw, dw']⟩

/-! ### Shape chain through `SimpleNet.forward` -/

/-- Stem output shape: `(B, 16, H, W)`. -/
lemma SimpleNet.pre_shape (w : SimpleNetW) (img : Tensor) (hh : 1 ≤ img.h)
    (hw : 1 ≤ img.w) :
    ((SimpleNet.init w).pre img).b = img.b ∧ ((SimpleNet.init w).pre img).c = 16 ∧
      ((SimpleNet.init w).pre img).h = img.h ∧ ((SimpleNet.init w).pre img).w = img.w :=
  ⟨rfl, rfl, convOutDim_3_1_1 _ hh, convOutDim_3_1_1 _ hw⟩

/-- Encoder stage 1 output shape: `(B, 64, H/2, W/2)`. -/
lemma SimpleNet.first_shape (w : SimpleNetW) (img : Tensor) (h16 : 16 ∣ img.h)
    (w16 : 16 ∣ img.w) (hh : 0 < img.h) (hw : 0 < img.w) :
    ((SimpleNet.init w).first img).b = img.b ∧ ((SimpleNet.init w).first img).c = 64 ∧
      ((SimpleNet.init w).first img).h = img.h / 2 ∧
      ((SimpleNet.init w).first img).w = img.w / 2 := by
  obtain ⟨pb, pc', ph, pw'⟩ := SimpleNet.pre_shape w img (by omega) (by omega)
  obtain ⟨sb, sc, sh, sw⟩ := EncoderStage.init_forward_shape_encstage 16 64 1 w.st1
    ((SimpleNet.init w).pre img) (by rw [ph]; omega) (by rw [pw']; omega)
    (by rw [ph]; omega) (by rw [pw']; omega)
  exact ⟨sb.trans pb, sc, sh.trans (by rw [ph]), sw.trans (by rw [pw'])⟩

/-- Encoder stage 2 output shape: `(B, 128, H/4, W/4)`. -/
lemma SimpleNet.second_shape (w : SimpleNetW) (img : Tensor) (h16 : 16 ∣ img.h)
    (w16 : 16 ∣ img.w) (hh : 0 < img.h) (hw : 0 < img.w) :
    ((SimpleNet.init w).second img).b = img.b ∧ ((SimpleNet.init w).second img).c = 128 ∧
      ((SimpleNet.init w).second img).h = img.h / 4 ∧
      ((SimpleNet.init w).second img).w = img.w / 4 := by
  obtain ⟨pb, pc', ph, pw'⟩ := SimpleNet.first_shape w img h16 w16 hh hw
  obtain ⟨sb, sc, sh, sw⟩ := EncoderStage.init_forward_shape_encstage 64 128 1 w.st2
    ((SimpleNet.init w).first img) (by rw [ph]; omega) (by rw [pw']; omega)
    (by rw [ph]; omega) (by rw [pw']; omega)
  exact ⟨sb.trans pb, sc, sh.trans (by rw [ph]; omega), sw.trans (by rw [pw']; omega)⟩

/-- Encoder stage 3 output shape: `(B, 256, H/8, W/8)`. -/
lemma SimpleNet.third_shape (w : SimpleNetW) (img : Tensor) (h16 : 16 ∣ img.h)
    (w16 : 16 ∣ img.w) (hh : 0 < img.h) (hw : 0 < img.w) :
    ((SimpleNet.init w).third img).b = img.b ∧ ((SimpleNet.init w).third img).c = 256 ∧
      ((SimpleNet.init w).third img).h = img.h / 8 ∧
      ((SimpleNet.init w).third img).w = img.w / 8 := by
  obtain ⟨pb, pc', ph, pw'⟩ := SimpleNet.second_shape w img h16 w16 hh hw
  obtain ⟨sb, sc, sh, sw⟩ := EncoderStage.init_forward_shape_encstage 128 256 3 w.st3
    ((SimpleNet.init w).second img) (by rw [ph]; omega) (by rw [pw']; omega)
    (by rw [ph]; omega) (by rw [pw']; omega)
  exact ⟨sb.trans pb, sc, sh.trans (by rw [ph]; omega), sw.trans (by rw [pw']; omega)⟩

/-- Encoder stage 4 output shape: `(B, 512, H/16, W/16)`. -/
lemma SimpleNet.fourth_shape (w : SimpleNetW) (img : Tensor) (h16 : 16 ∣ img.h)
    (w16 : 16 ∣ img.w) (hh : 0 < img.h) (hw : 0 < img.w) :
    ((SimpleNet.init w).fourth img).b = img.b ∧ ((SimpleNet.init w).fourth img).c = 512 ∧
      ((SimpleNet.init w).fourth img).h = img.h / 16 ∧
      ((SimpleNet.init w).fourth img).w = img.w / 16 := by
  obtain ⟨pb, pc', ph, pw'⟩ := SimpleNet.third_shape w img h16 w16 hh hw
  obtain ⟨sb, sc, sh, sw⟩ := EncoderStage.init_forward_shape_encstage 256 512 3 w.st4
    ((SimpleNet.init w).third img) (by rw [ph]; omega) (by rw [pw']; omega)
    (by rw [ph]; omega) (by rw [pw']; omega)
  exact ⟨sb.trans pb, sc, sh.trans (by rw [ph]; omega), sw.trans (by rw [pw']; omega)⟩

/-- Decoder stage 1 output shape: `(B, 64, H/8, W/8)`. -/
lemma SimpleNet.deFirst_shape (w : SimpleNetW) (img : Tensor) (h16 : 16 ∣ img.h)
    (w16 : 16 ∣ img.w) (hh : 0 < img.h) (hw : 0 < img.w) :
    ((SimpleNet.init w).deFirst img).b = img.b ∧
      ((SimpleNet.init w).deFirst img).c = 64 ∧
      ((SimpleNet.init w).deFirst img).h = img.h / 8 ∧
      ((SimpleNet.init w).deFirst img).w = img.w / 8 := by
  obtain ⟨pb, pc', ph, pw'⟩ := SimpleNet.fourth_shape w img h16 w16 hh hw
  obtain ⟨sb, sc, sh, sw⟩ := DecoderStage.init_forward_shape_decstage 512 64 256 w.ds1
    ((SimpleNet.init w).fourth img) ((SimpleNet.init w).third img)
    (by rw [ph]; omega) (by rw [pw']; omega)
  exact ⟨sb.trans pb, sc, sh.trans (by rw [ph]; omega), sw.trans (by rw [pw']; omega)⟩

/-- Decoder stage 2 output shape: `(B, 32, H/4, W/4)`. -/
lemma SimpleNet.deSecond_shape (w : SimpleNetW) (img : Tensor) (h16 : 16 ∣ img.h)
    (w16 : 16 ∣ img.w) (hh : 0 < img.h) (hw : 0 < img.w) :
    ((SimpleNet.init w).deSecond img).b = img.b ∧
      ((SimpleNet.init w).deSecond img).c = 32 ∧
      ((SimpleNet.init w).deSecond img).h = img.h / 4 ∧
      ((SimpleNet.init w).deSecond img).w = img.w / 4 := by
  obtain ⟨pb, pc', ph, pw'⟩ := SimpleNet.deFirst_shape w img h16 w16 hh hw
  obtain ⟨sb, sc, sh, sw⟩ := DecoderStage.init_forward_shape_decstage 64 32 128 w.ds2
    ((SimpleNet.init w).deFirst img) ((SimpleNet.init w).second img)
    (by rw [ph]; omega) (by rw [pw']; omega)
  exact ⟨sb.trans pb, sc, sh.trans (by rw [ph]; omega), sw.trans (by rw [pw']; omega)⟩

/-- Decoder stage 3 output shape: `(B, 32, H/2, W/2)`. -/
lemma SimpleNet.deThird_shape (w : SimpleNetW) (img : Tensor) (h16 : 16 ∣ img.h)
    (w16 : 16 ∣ img.w) (hh : 0 < img.h) (hw : 0 < img.w) :
    ((SimpleNet.init w).deThird img).b = img.b ∧
      ((SimpleNet.init w).deThird img).c = 32 ∧
      ((SimpleNet.init w).deThird img).h = img.h / 2 ∧
      ((SimpleNet.init w).deThird img).w = img.w / 2 := by
  obtain ⟨pb, pc', ph, pw'⟩ := SimpleNet.deSecond_shape w img h16 w16 hh hw
  obtain ⟨sb, sc, sh, sw⟩ := DecoderStage.init_forward_shape_decstage 32 32 64 w.ds3
    ((SimpleNet.init w).deSecond img) ((SimpleNet.init w).first img)
    (by rw [ph]; omega) (by rw [pw']; omega)
  exact ⟨sb.trans pb, sc, sh.trans (by rw [ph]; omega), sw.trans (by rw [pw']; omega)⟩

/-- Decoder stage 4 output shape: `(B, 16, H, W)`. -/
lemma SimpleNet.deFourth_shape (w : SimpleNetW) (img : Tensor) (h16 : 16 ∣ img.h)
    (w16 : 16 ∣ img.w) (hh : 0 < img.h) (hw : 0 < img.w) :
    ((SimpleNet.init w).deFourth img).b = img.b ∧
      ((SimpleNet.init w).deFourth img).c = 16 ∧
      ((SimpleNet.init w).deFourth img).h = img.h ∧
      ((SimpleNet.init w).deFourth img).w = img.w := by
  obtain ⟨pb, pc', ph, pw'⟩ := SimpleNet.deThird_shape w img h16 w16 hh hw
  obtain ⟨sb, sc, sh, sw⟩ := DecoderStage.init_forward_shape_decstage 32 16 16 w.ds4
    ((SimpleNet.init w).deThird img) ((SimpleNet.init w).pre img)
    (by rw [ph]; omega) (by rw [pw']; omega)
  exact ⟨sb.trans pb, sc, sh.trans (by rw [ph]; omega), sw.trans (by rw [pw']; omega)⟩

/-- Output head shape: `(B, 4, H, W)`. -/
lemma SimpleNet.outputT_shape (w : SimpleNetW) (img : Tensor) (h16 : 16 ∣ img.h)
    (w16 : 16 ∣ img.w) (hh : 0 < img.h) (hw : 0 < img.w) :
    ((SimpleNet.init w).outputT img).b = img.b ∧
      ((SimpleNet.init w).outputT img).c = 4 ∧
      ((SimpleNet.init w).outputT img).h = img.h ∧
      ((SimpleNet.init w).outputT img).w = img.w := by
  obtain ⟨pb, pc', ph, pw'⟩ := SimpleNet.deFourth_shape w img h16 w16 hh hw
  obtain ⟨db, dc', dh, dw'⟩ := Decoder.init_forward_shape_dec 16 16 w.outDec
    ((SimpleNet.init w).deFourth img) (by rw [ph]; omega) (by rw [pw']; omega)
  have keyO : (SimpleNet.init w).outputT img =
      Conv2d.forward ⟨16, 4, 3, 1, 1, 1, w.outConv.w, w.outConv.bias⟩
        ((Decoder.init 16 16 w.outDec).forward ((SimpleNet.init w).deFourth img)) := rfl
  rw [keyO]
  refine ⟨(Conv2d.forward_b _ _).trans (db.trans pb), rfl, ?_, ?_⟩
  · exact (Conv2d.forward_h _ _).trans
      (by rw [dh, ph]; exact convOutDim_3_1_1 _ (by omega))
  · exact (Conv2d.forward_w _ _).trans
      (by rw [dw', pw']; exact convOutDim_3_1_1 _ (by omega))

/-! ### Zero-weight evaluation lemmas -/

/-- A convolution whose weights and biases are all zero outputs zero data at
every index. -/
lemma Conv2d.forward_data_zero (cv : Conv2d) (hw : ∀ a b g d, cv.weight a b g d = 0)
    (hb : ∀ a, cv.bias a = 0) (x : Tensor) (bb oc i j : ℕ) :
    (cv.forward x).data bb oc i j = 0 := by
  simp [Conv2d.forward, hw, hb]

/-- A `CovSepBlock` with all-zero weights outputs zero data at every index
(the pointwise stage alone already forces this). -/
lemma CovSepBlock.init_forward_data_zero (inC outC : ℕ) (cw : CovSepW) (k s p : ℕ)
    (hz : cw.IsZero) (x : Tensor) (bb oc i j : ℕ) :
    ((CovSepBlock.init inC outC cw k s p).forward x).data bb oc i j = 0 :=
  Conv2d.forward_data_zero _ hz.2.1 hz.2.2 _ _ _ _ _

/-! ### Helpers for the encoder-stage loop -/

/-- The Python repetition loop is iteration of the single shared encoder. -/
lemma encLoop_eq_iterate (e : Encoder) (n : ℕ) (y : Tensor) :
    encLoop e n y = (e.forward)^[n] y := by
  induction n generalizing y with
  | zero => rfl
  | succ m ih => rw [encLoop, ih, Function.iterate_succ_apply]

/-! ### Witness fixtures: all-zero weight bundles and a concrete image -/

/-- The all-zero 4-index weight function. -/
def zeroQ4 : ℕ → ℕ → ℕ → ℕ → ℚ := fun _ _ _ _ => 0

/-- The all-zero bias function. -/
def zeroQ1 : ℕ → ℚ := fun _ => 0

def zeroCovSepW : CovSepW := ⟨zeroQ4, zeroQ4, zeroQ1⟩

def zeroEncoderW : EncoderW := ⟨zeroCovSepW, zeroCovSepW, zeroCovSepW⟩

def zeroDownW : DownW := ⟨zeroCovSepW, zeroCovSepW, zeroCovSepW⟩

def zeroStageW : StageW := ⟨zeroEncoderW, zeroDownW⟩

def zeroDecW : DecW := ⟨zeroCovSepW, zeroCovSepW⟩

def zeroUpW : UpW := ⟨zeroQ4, zeroQ1⟩

def zeroDecStageW : DecStageW := ⟨zeroDecW, zeroUpW, zeroCovSepW⟩

def zeroConvW : ConvW := ⟨zeroQ4, zeroQ1⟩

def zeroNetW : SimpleNetW :=
  ⟨zeroConvW, zeroStageW, zeroStageW, zeroStageW, zeroStageW,
    zeroDecStageW, zeroDecStageW, zeroDecStageW, zeroDecStageW, zeroDecW, zeroConvW⟩

/-- A concrete all-zero image of shape `(1, 4, 16, 16)`. -/
def testImg : Tensor := ⟨1, 4, 16, 16, zeroQ4⟩

lemma zeroCovSepW_isZero : zeroCovSepW.IsZero :=
  ⟨fun _ _ _ _ => rfl, fun _ _ _ _ => rfl, fun _ => rfl⟩

lemma zeroConvW_isZero : zeroConvW.IsZero :=
  ⟨fun _ _ _ _ => rfl, fun _ => rfl⟩

/-! ### Claim theorems -/

/-- C5: `Upsampling` doubles each spatial dimension exactly: for every input
of shape `(B, C_in, H, W)`, the single transposed convolution (kernel 2×2,
stride 2, no padding) produces an output of shape `(B, C_out, 2H, 2W)`. -/
theorem Upsampling.forward_doubles_shape (inC outC : ℕ) (wu : UpW) (x : Tensor) :
    ((Upsampling.init inC outC wu).forward x).b = x.b ∧
      ((Upsampling.init inC outC wu).forward x).c = outC ∧
      ((Upsampling.init inC outC wu).forward x).h = 2 * x.h ∧
      ((Upsampling.init inC outC wu).forward x).w = 2 * x.w :=
  Upsampling.init_forward_shape_up inC outC wu x

/-- C8: constructing an `Encoder` (or `Downsampling`) with an out-channel
count not divisible by 4 succeeds, and the internal bottleneck channel count
is the silently truncated integer division `outC / 4`. -/
theorem bottleneck_silently_truncates (inC outC : ℕ) (we : EncoderW) (wd : DownW)
    (hnd : ¬ 4 ∣ outC) :
    (Encoder.init inC outC we).sepconv.pc.outC = outC / 4 ∧
      (Downsampling.init inC outC wd).sepconv.pc.outC = outC / 4 ∧
      4 * (outC / 4) < outC := by
  refine ⟨rfl, rfl, ?_⟩
  omega

/-- Witness for C8 at the concrete non-multiple `outC = 10`. -/
theorem bottleneck_silently_truncates_witness :
    ¬ 4 ∣ 10 ∧
      ((Encoder.init 3 10 zeroEncoderW).sepconv.pc.outC = 10 / 4 ∧
        (Downsampling.init 3 10 zeroDownW).sepconv.pc.outC = 10 / 4 ∧
        4 * (10 / 4) < 10) :=
  ⟨by decide, bottleneck_silently_truncates 3 10 zeroEncoderW zeroDownW (by decide)⟩

/-- C4: `Downsampling` halves spatial dimensions exactly: for every input of
shape `(B, C_in, H, W)` with `H` and `W` even (and positive), both the main
path (5×5 stride-2 pad-2 separable conv then 5×5 stride-1 pad-2 separable
conv) and the branch path (3×3 stride-2 pad-1 separable conv) independently
produce spatial dimensions `(H/2, W/2)`, so the summed output has shape
`(B, C_out, H/2, W/2)`. -/
theorem Downsampling.halves_spatial_dims (inC outC : ℕ) (wd : DownW) (x : Tensor)
    (hh2 : 2 ∣ x.h) (hw2 : 2 ∣ x.w) (hh : 0 < x.h) (hw : 0 < x.w) :
    (((Downsampling.init inC outC wd).sepconv2.forward
        (reluT ((Downsampling.init inC outC wd).sepconv.forward x))).h = x.h / 2 ∧
      ((Downsampling.init inC outC wd).sepconv2.forward
        (reluT ((Downsampling.init inC outC wd).sepconv.forward x))).w = x.w / 2) ∧
      (((Downsampling.init inC outC wd).branchconv.forward x).h = x.h / 2 ∧
        ((Downsampling.init inC outC wd).branchconv.forward x).w = x.w / 2) ∧
      (((Downsampling.init inC outC wd).forward x).b = x.b ∧
        ((Downsampling.init inC outC wd).forward x).c = outC ∧
        ((Downsampling.init inC outC wd).forward x).h = x.h / 2 ∧
        ((Downsampling.init inC outC wd).forward x).w = x.w / 2) := by
  have h2 : 2 ≤ x.h := by omega
  have w2 : 2 ≤ x.w := by omega
  have h1 : 1 ≤ x.h / 2 := by omega
  have w1 : 1 ≤ x.w / 2 := by omega
  refine ⟨⟨?_, ?_⟩, ⟨?_, ?_⟩, ?_, ?_, ?_, ?_⟩ <;>
    simp [Downsampling.init, Downsampling.forward, convOutDim_5_2_2, convOutDim_5_1_2,
      convOutDim_3_2_1, hh2, hw2, h2, w2, h1, w1]

/-- Witness for C4 at a concrete `(1, 4, 16, 16)` input. -/
theorem Downsampling.halves_spatial_dims_witness :
    2 ∣ testImg.h ∧ 2 ∣ testImg.w ∧ 0 < testImg.h ∧ 0 < testImg.w ∧
      ((((Downsampling.init 4 8 zeroDownW).sepconv2.forward
          (reluT ((Downsampling.init 4 8 zeroDownW).sepconv.forward testImg))).h =
            testImg.h / 2 ∧
        ((Downsampling.init 4 8 zeroDownW).sepconv2.forward
          (reluT ((Downsampling.init 4 8 zeroDownW).sepconv.forward testImg))).w =
            testImg.w / 2) ∧
        (((Downsampling.init 4 8 zeroDownW).branchconv.forward testImg).h = testImg.h / 2 ∧
          ((Downsampling.init 4 8 zeroDownW).branchconv.forward testImg).w = testImg.w / 2) ∧
        (((Downsampling.init 4 8 zeroDownW).forward testImg).b = testImg.b ∧
          ((Downsampling.init 4 8 zeroDownW).forward testImg).c = 8 ∧
          ((Downsampling.init 4 8 zeroDownW).forward testImg).h = testImg.h / 2 ∧
          ((Downsampling.init 4 8 zeroDownW).forward testImg).w = testImg.w / 2)) :=
  ⟨by decide, by decide, by decide, by decide,
    Downsampling.halves_spatial_dims 4 8 zeroDownW testImg (by decide) (by decide)
      (by decide) (by decide)⟩

/-- C3 (amended): `EncoderStage.forward` applies `Downsampling` once and then
the stage's single owned `Encoder` instance exactly `num` times; every loop
iteration applies that one shared instance, so all repetitions share weights. -/
theorem EncoderStage.downsample_then_shared_encoder (st : EncoderStage) (x : Tensor) :
    st.forward x = (st.encoder.forward)^[st.num] (st.downsampling.forward x) ∧
      ∀ i, st.appliedEncoder i = st.encoder := by
  exact ⟨by rw [EncoderStage.forward, encLoop_eq_iterate], fun _ => rfl⟩

/-- C3 counterexample: contrary to the claim, the repeated encoder
applications of an `EncoderStage` are NOT independently-constructed
instances — no stage can apply different encoder weights at two different
iterations, because every iteration applies the one shared `self.encoder`. -/
theorem EncoderStage.no_independent_encoder_instances :
    ¬ ∃ st : EncoderStage, st.num = 2 ∧ st.appliedEncoder 0 ≠ st.appliedEncoder 1 := by
  rintro ⟨st, -, hne⟩
  exact hne rfl

/-- C6: Encoder shortcut identity: for an `Encoder` constructed with
`C_in == C_out` (so the shortcut is the unmodified input and no projection
block is constructed), if all weights and biases of the two separable-conv
sub-paths are zero, then for every valid input `x` (with `C_in` channels and
positive spatial dimensions) the output equals the ReLU activation applied to
`x` itself. -/
theorem Encoder.shortcut_identity (c0 : ℕ) (we : EncoderW) (x : Tensor)
    (hc : x.c = c0) (hh : 0 < x.h) (hw : 0 < x.w)
    (hz1 : we.w1.IsZero) (hz2 : we.w2.IsZero) :
    (Encoder.init c0 c0 we).forward x = reluT x := by
  have key : (Encoder.init c0 c0 we).forward x =
      reluT (addT ((CovSepBlock.init (c0 / 4) c0 we.w2 5 1 2).forward
        (reluT ((CovSepBlock.init c0 (c0 / 4) we.w1 5 1 2).forward x))) x) := by
    simp [Encoder.forward, Encoder.init]
  have hh1 : 1 ≤ x.h := hh
  have hw1 : 1 ≤ x.w := hw
  rw [key]
  refine Tensor.ext ?_ ?_ ?_ ?_ ?_
  · simp
  · simp [hc]
  · simp [convOutDim_5_1_2, hh1]
  · simp [convOutDim_5_1_2, hw1]
  · funext bb cc i j
    have h0 : ((CovSepBlock.init (c0 / 4) c0 we.w2 5 1 2).forward
        (reluT ((CovSepBlock.init c0 (c0 / 4) we.w1 5 1 2).forward x))).data bb cc i j = 0 :=
      CovSepBlock.init_forward_data_zero _ _ _ _ _ _ hz2 _ _ _ _ _
    show max 0 (((CovSepBlock.init (c0 / 4) c0 we.w2 5 1 2).forward
        (reluT ((CovSepBlock.init c0 (c0 / 4) we.w1 5 1 2).forward x))).data bb cc i j +
          x.data bb cc i j) = max 0 (x.data bb cc i j)
    rw [h0, zero_add]

/-- Witness for C6 at a concrete 4-channel `(1, 4, 16, 16)` input with zero
weights. -/
theorem Encoder.shortcut_identity_witness :
    testImg.c = 4 ∧ 0 < testImg.h ∧ 0 < testImg.w ∧
      zeroEncoderW.w1.IsZero ∧ zeroEncoderW.w2.IsZero ∧
      (Encoder.init 4 4 zeroEncoderW).forward testImg = reluT testImg :=
  ⟨rfl, by decide, by decide, zeroCovSepW_isZero, zeroCovSepW_isZero,
    Encoder.shortcut_identity 4 zeroEncoderW testImg rfl (by decide) (by decide)
      zeroCovSepW_isZero zeroCovSepW_isZero⟩

/-- C1: for every input tensor of shape `(B, 4, H, W)` with `H` and `W`
divisible by 16 (and positive), `SimpleNet.forward` returns a tensor of
exactly the same shape `(B, 4, H, W)`. -/
theorem SimpleNet.forward_preserves_shape (w : SimpleNetW) (img : Tensor)
    (hc : img.c = 4) (h16 : 16 ∣ img.h) (w16 : 16 ∣ img.w)
    (hh : 0 < img.h) (hw : 0 < img.w) :
    ((SimpleNet.init w).forward img).b = img.b ∧
      ((SimpleNet.init w).forward img).c = img.c ∧
      ((SimpleNet.init w).forward img).h = img.h ∧
      ((SimpleNet.init w).forward img).w = img.w := by
  obtain ⟨ob, oc', oh, ow⟩ := SimpleNet.outputT_shape w img h16 w16 hh hw
  have key : (SimpleNet.init w).forward img =
      addT ((SimpleNet.init w).outputT img) img := rfl
  rw [key, addT_b, addT_c, addT_h, addT_w]
  exact ⟨ob, oc'.trans hc.symm, oh, ow⟩

/-- Witness for C1 at the concrete `(1, 4, 16, 16)` image. -/
theorem SimpleNet.forward_preserves_shape_witness :
    testImg.c = 4 ∧ 16 ∣ testImg.h ∧ 16 ∣ testImg.w ∧ 0 < testImg.h ∧ 0 < testImg.w ∧
      (((SimpleNet.init zeroNetW).forward testImg).b = testImg.b ∧
        ((SimpleNet.init zeroNetW).forward testImg).c = testImg.c ∧
        ((SimpleNet.init zeroNetW).forward testImg).h = testImg.h ∧
        ((SimpleNet.init zeroNetW).forward testImg).w = testImg.w) :=
  ⟨rfl, by decide, by decide, by decide, by decide,
    SimpleNet.forward_preserves_shape zeroNetW testImg rfl (by decide) (by decide)
      (by decide) (by decide)⟩

/-- C7: for every input of shape `(B, 4, H, W)` with `H` and `W` divisible by
16 (and positive), every `assert` in `SimpleNet.forward` passes: the channel
dimension is 4 at input, 16 after the stem, 64/128/256/512 after encoder
stages 1-4, 64/32/32/16 after decoder stages 1-4, and 4 at the output head. -/
theorem SimpleNet.asserts_pass (w : SimpleNetW) (img : Tensor)
    (hc : img.c = 4) (h16 : 16 ∣ img.h) (w16 : 16 ∣ img.w)
    (hh : 0 < img.h) (hw : 0 < img.w) :
    (SimpleNet.init w).assertsHold img :=
  ⟨hc, rfl, rfl, rfl, rfl, rfl, rfl, rfl, rfl, rfl, rfl⟩

/-- Witness for C7 at the concrete `(1, 4, 16, 16)` image. -/
theorem SimpleNet.asserts_pass_witness :
    testImg.c = 4 ∧ 16 ∣ testImg.h ∧ 16 ∣ testImg.w ∧ 0 < testImg.h ∧ 0 < testImg.w ∧
      (SimpleNet.init zeroNetW).assertsHold testImg :=
  ⟨rfl, by decide, by decide, by decide, by decide,
    SimpleNet.asserts_pass zeroNetW testImg rfl (by decide) (by decide)
      (by decide) (by decide)⟩

/-- C2: global residual identity: if every learnable weight and bias in the
output head (the final `Decoder(16,16)` block and the final 16→4 convolution)
is zero, then for every valid input image (4 channels, spatial dimensions
positive and divisible by 16), `SimpleNet.forward img = img`. -/
theorem SimpleNet.residual_identity (w : SimpleNetW) (img : Tensor)
    (hc : img.c = 4) (h16 : 16 ∣ img.h) (w16 : 16 ∣ img.w)
    (hh : 0 < img.h) (hw : 0 < img.w)
    (hz1 : w.outDec.w1.IsZero) (hz2 : w.outDec.w2.IsZero)
    (hzc : w.outConv.IsZero) :
    (SimpleNet.init w).forward img = img := by
  obtain ⟨ob, oc', oh, ow⟩ := SimpleNet.outputT_shape w img h16 w16 hh hw
  have key : (SimpleNet.init w).forward img =
      addT ((SimpleNet.init w).outputT img) img := rfl
  rw [key]
  refine Tensor.ext ?_ ?_ ?_ ?_ ?_
  · rw [addT_b]; exact ob
  · rw [addT_c]; exact oc'.trans hc.symm
  · rw [addT_h]; exact oh
  · rw [addT_w]; exact ow
  · funext bb cc i j
    have keyO : (SimpleNet.init w).outputT img =
        Conv2d.forward ⟨16, 4, 3, 1, 1, 1, w.outConv.w, w.outConv.bias⟩
          ((Decoder.init 16 16 w.outDec).forward ((SimpleNet.init w).deFourth img)) := rfl
    have h0 : ((SimpleNet.init w).outputT img).data bb cc i j = 0 := by
      rw [keyO]
      exact Conv2d.forward_data_zero _ hzc.1 hzc.2 _ _ _ _ _
    show ((SimpleNet.init w).outputT img).data bb cc i j + img.data bb cc i j =
      img.data bb cc i j
    rw [h0, zero_add]

/-- Witness for C2 at the concrete `(1, 4, 16, 16)` image with all-zero
weights. -/
theorem SimpleNet.residual_identity_witness :
    testImg.c = 4 ∧ 16 ∣ testImg.h ∧ 16 ∣ testImg.w ∧ 0 < testImg.h ∧ 0 < testImg.w ∧
      zeroNetW.outDec.w1.IsZero ∧ zeroNetW.outDec.w2.IsZero ∧ zeroNetW.outConv.IsZero ∧
      (SimpleNet.init zeroNetW).forward testImg = testImg :=
  ⟨rfl, by decide, by decide, by decide, by decide,
    zeroCovSepW_isZero, zeroCovSepW_isZero, zeroConvW_isZero,
    SimpleNet.residual_identity zeroNetW testImg rfl (by decide) (by decide)
      (by decide) (by decide) zeroCovSepW_isZero zeroCovSepW_isZero zeroConvW_isZero⟩

/-!
### Heap model of the forward pass

PyTorch tensors are heap objects and the model's `ReLU(inplace=True)`
activations and `x += branch` mutate their argument in place, while module
calls and `x + y` allocate fresh result tensors.  To settle the frame and
determinism claims we re-run the forward pass over an explicit store of
tensors: ids below `next` are allocated; each Python expression becomes an
operation on `(id, store)`.
-/

/-- A store of tensors: `heap` maps ids to tensors, ids below `next` are
allocated, fresh tensors are allocated at `next`. -/
structure St where
  heap : ℕ → Tensor
  next : ℕ

/-- Allocate a fresh tensor (module calls, `x + y`). -/
def allocT (t : Tensor) (s : St) : ℕ × St :=
  (s.next, ⟨Function.update s.heap s.next t, s.next + 1⟩)

/-- Overwrite the tensor at an existing id (in-place operations). -/
def writeT (a : ℕ) (t : Tensor) (s : St) : St :=
  ⟨Function.update s.heap a t, s.next⟩

/-- A `Conv2d` module call: reads its argument, allocates the result. -/
def Conv2d.forwardM (cv : Conv2d) (a : ℕ) (s : St) : ℕ × St :=
  allocT (cv.forward (s.heap a)) s

/-- A `ConvTranspose2d` module call: reads its argument, allocates the
result. -/
def ConvTranspose2d.forwardM (cv : ConvTranspose2d) (a : ℕ) (s : St) : ℕ × St :=
  allocT (cv.forward (s.heap a)) s

/-- `ReLU(inplace=True)`: overwrites its argument in place and returns the
same id. -/
def reluM (a : ℕ) (s : St) : ℕ × St :=
  (a, writeT a (reluT (s.heap a)) s)

/-- `x + y`: allocates a fresh result tensor. -/
def addNewM (a b : ℕ) (s : St) : ℕ × St :=
  allocT (addT (s.heap a) (s.heap b)) s

/-- `x += y`: overwrites `x` in place and returns its id. -/
def addInPlaceM (a b : ℕ) (s : St) : ℕ × St :=
  (a, writeT a (addT (s.heap a) (s.heap b)) s)

/-- `CovSepBlock.forward` on the store (model.py 20-23). -/
def CovSepBlock.forwardM (cb : CovSepBlock) (a : ℕ) (s : St) : ℕ × St :=
  let r1 := cb.dc.forwardM a s
  cb.pc.forwardM r1.1 r1.2

/-- The separable-conv pipeline `sepconv; ReLU(inplace); sepconv2` shared by
`Encoder.forward` (model.py 41-43). -/
def Encoder.mainM (e : Encoder) (a : ℕ) (s : St) : ℕ × St :=
  e.sepconv2.forwardM (reluM (e.sepconv.forwardM a s).1 (e.sepconv.forwardM a s).2).1
    (reluM (e.sepconv.forwardM a s).1 (e.sepconv.forwardM a s).2).2

/-- The main path of `Encoder.forward` after the branch is chosen
(model.py 41-45): the pipeline, then `x += branch` in place, then in-place
ReLU. -/
def Encoder.coreM (e : Encoder) (a branchId : ℕ) (s : St) : ℕ × St :=
  reluM (addInPlaceM (e.mainM a s).1 branchId (e.mainM a s).2).1
    (addInPlaceM (e.mainM a s).1 branchId (e.mainM a s).2).2

/-- `Encoder.forward` on the store (model.py 36-45): the branch (projection
or the input itself) is computed first. -/
def Encoder.forwardM (e : Encoder) (a : ℕ) (s : St) : ℕ × St :=
  let br := match e.proj with
    | some pr => pr.forwardM a s
    | none => (a, s)
  e.coreM a br.1 br.2

/-- `Upsampling.forward` on the store (model.py 53-54). -/
def Upsampling.forwardM (u : Upsampling) (a : ℕ) (s : St) : ℕ × St :=
  u.upsample.forwardM a s

/-- The main path `sepconv; ReLU(inplace); sepconv2` of `Downsampling.forward`
(model.py 68-70). -/
def Downsampling.mainM (d : Downsampling) (a : ℕ) (s : St) : ℕ × St :=
  d.sepconv2.forwardM (reluM (d.sepconv.forwardM a s).1 (d.sepconv.forwardM a s).2).1
    (reluM (d.sepconv.forwardM a s).1 (d.sepconv.forwardM a s).2).2

/-- `Downsampling.forward` on the store (model.py 66-72): main path, then
the branch conv on the original input, then a non-destructive add. -/
def Downsampling.forwardM (d : Downsampling) (a : ℕ) (s : St) : ℕ × St :=
  addNewM (d.mainM a s).1 (d.branchconv.forwardM a (d.mainM a s).2).1
    (d.branchconv.forwardM a (d.mainM a s).2).2

/-- The main path `sepconv; ReLU(inplace); sepconv2` of `Decoder.forward`
(model.py 85-87). -/
def Decoder.mainM (d : Decoder) (a : ℕ) (s : St) : ℕ × St :=
  d.sepconv2.forwardM (reluM (d.sepconv.forwardM a s).1 (d.sepconv.forwardM a s).2).1
    (reluM (d.sepconv.forwardM a s).1 (d.sepconv.forwardM a s).2).2

/-- `Decoder.forward` on the store (model.py 83-88): the shortcut add
`x + branch` reads the original input and is non-destructive. -/
def Decoder.forwardM (d : Decoder) (a : ℕ) (s : St) : ℕ × St :=
  addNewM (d.mainM a s).1 a (d.mainM a s).2

/-- The encoder repetition loop on the store (model.py 100-101). -/
def encLoopM (e : Encoder) : ℕ → ℕ → St → ℕ × St
  | 0, a, s => (a, s)
  | n + 1, a, s =>
    let r := e.forwardM a s
    encLoopM e n r.1 r.2

/-- `EncoderStage.forward` on the store (model.py 98-102). -/
def EncoderStage.forwardM (st : EncoderStage) (a : ℕ) (s : St) : ℕ × St :=
  let r := st.downsampling.forwardM a s
  encLoopM st.encoder st.num r.1 r.2

/-- The main-input path `decoder; upsampling` of `DecoderStage.forward`
(model.py 115-116). -/
def DecoderStage.mainM (st : DecoderStage) (a : ℕ) (s : St) : ℕ × St :=
  st.upsampling.forwardM (st.decoder.forwardM a s).1 (st.decoder.forwardM a s).2

/-- The skip path `skipconnect; ReLU(inplace)` of `DecoderStage.forward`
(model.py 117-118). -/
def DecoderStage.skipM (st : DecoderStage) (bSkip : ℕ) (s : St) : ℕ × St :=
  reluM (st.skipconnect.forwardM bSkip s).1 (st.skipconnect.forwardM bSkip s).2

/-- `DecoderStage.forward` on the store (model.py 113-120): main path, then
skip path, then a non-destructive add. -/
def DecoderStage.forwardM (st : DecoderStage) (a bSkip : ℕ) (s : St) : ℕ × St :=
  addNewM (st.mainM a s).1 (st.skipM bSkip (st.mainM a s).2).1
    (st.skipM bSkip (st.mainM a s).2).2

/-- `pre` of `SimpleNet.forward` on the store (model.py 142-143): stem conv
then in-place ReLU on the freshly allocated stem output.  The following
store-level intermediates mirror the pure intermediates (`SimpleNet.pre`,
`SimpleNet.first`, ...); the `assert` statements only read shapes and have no
store effect. -/
def SimpleNet.preM (n : SimpleNet) (a : ℕ) (s : St) : ℕ × St :=
  reluM (n.conv.forwardM a s).1 (n.conv.forwardM a s).2

/-- `first` of `SimpleNet.forward` on the store (model.py 145). -/
def SimpleNet.firstM (n : SimpleNet) (a : ℕ) (s : St) : ℕ × St :=
  n.encoder_stage1.forwardM (n.preM a s).1 (n.preM a s).2

/-- `second` of `SimpleNet.forward` on the store (model.py 147). -/
def SimpleNet.secondM (n : SimpleNet) (a : ℕ) (s : St) : ℕ × St :=
  n.encoder_stage2.forwardM (n.firstM a s).1 (n.firstM a s).2

/-- `third` of `SimpleNet.forward` on the store (model.py 149). -/
def SimpleNet.thirdM (n : SimpleNet) (a : ℕ) (s : St) : ℕ × St :=
  n.encoder_stage3.forwardM (n.secondM a s).1 (n.secondM a s).2

/-- `fourth` of `SimpleNet.forward` on the store (model.py 151). -/
def SimpleNet.fourthM (n : SimpleNet) (a : ℕ) (s : St) : ℕ × St :=
  n.encoder_stage4.forwardM (n.thirdM a s).1 (n.thirdM a s).2

/-- `de_first` of `SimpleNet.forward` on the store (model.py 153). -/
def SimpleNet.deFirstM (n : SimpleNet) (a : ℕ) (s : St) : ℕ × St :=
  n.decoder_stage1.forwardM (n.fourthM a s).1 (n.thirdM a s).1 (n.fourthM a s).2

/-- `de_second` of `SimpleNet.forward` on the store (model.py 155). -/
def SimpleNet.deSecondM (n : SimpleNet) (a : ℕ) (s : St) : ℕ × St :=
  n.decoder_stage2.forwardM (n.deFirstM a s).1 (n.secondM a s).1 (n.deFirstM a s).2

/-- `de_thrid` of `SimpleNet.forward` on the store (model.py 157). -/
def SimpleNet.deThirdM (n : SimpleNet) (a : ℕ) (s : St) : ℕ × St :=
  n.decoder_stage3.forwardM (n.deSecondM a s).1 (n.firstM a s).1 (n.deSecondM a s).2

/-- `de_fourth` of `SimpleNet.forward` on the store (model.py 159). -/
def SimpleNet.deFourthM (n : SimpleNet) (a : ℕ) (s : St) : ℕ × St :=
  n.decoder_stage4.forwardM (n.deThirdM a s).1 (n.preM a s).1 (n.deThirdM a s).2

/-- `output` of `SimpleNet.forward` on the store (model.py 161): the
`Sequential` output head applies the decoder then the conv. -/
def SimpleNet.outputM (n : SimpleNet) (a : ℕ) (s : St) : ℕ × St :=
  n.output_conv.forwardM
    (n.output_decoder.forwardM (n.deFourthM a s).1 (n.deFourthM a s).2).1
    (n.output_decoder.forwardM (n.deFourthM a s).1 (n.deFourthM a s).2).2

/-- `SimpleNet.forward` on the store (model.py 140-163): the global residual
`output + img` allocates a fresh result. -/
def SimpleNet.forwardM (n : SimpleNet) (a : ℕ) (s : St) : ℕ × St :=
  addNewM (n.outputM a s).1 a (n.outputM a s).2

/-- Specification of a one-input block on the store: starting from a valid
argument id, the block only grows the store, returns a valid fresh result id,
leaves every previously allocated id untouched, and the result value is the
pure forward function of the argument value. -/
def MOk (f : ℕ → St → ℕ × St) (g : Tensor → Tensor) : Prop :=
  ∀ a s, a < s.next →
    s.next ≤ (f a s).2.next ∧ s.next ≤ (f a s).1 ∧ (f a s).1 < (f a s).2.next ∧
    (∀ j, j < s.next → (f a s).2.heap j = s.heap j) ∧
    (f a s).2.heap (f a s).1 = g (s.heap a)

/-- Specification of a two-input block on the store (`DecoderStage`). -/
def MOk2 (f : ℕ → ℕ → St → ℕ × St) (g : Tensor → Tensor → Tensor) : Prop :=
  ∀ a b s, a < s.next → b < s.next →
    s.next ≤ (f a b s).2.next ∧ s.next ≤ (f a b s).1 ∧ (f a b s).1 < (f a b s).2.next ∧
    (∀ j, j < s.next → (f a b s).2.heap j = s.heap j) ∧
    (f a b s).2.heap (f a b s).1 = g (s.heap a) (s.heap b)

/-! ### Primitive store-operation lemmas -/

@[simp] lemma allocT_fst (t : Tensor) (s : St) : (allocT t s).1 = s.next := rfl

@[simp] lemma allocT_next (t : Tensor) (s : St) : (allocT t s).2.next = s.next + 1 := rfl

lemma allocT_heap_ne (t : Tensor) (s : St) (j : ℕ) (hj : j ≠ s.next) :
    (allocT t s).2.heap j = s.heap j :=
  Function.update_noteq hj _ _

@[simp] lemma allocT_heap_same (t : Tensor) (s : St) :
    (allocT t s).2.heap s.next = t :=
  Function.update_same _ _ _

@[simp] lemma reluM_fst (a : ℕ) (s : St) : (reluM a s).1 = a := rfl

@[simp] lemma reluM_next (a : ℕ) (s : St) : (reluM a s).2.next = s.next := rfl

lemma reluM_heap_ne (a : ℕ) (s : St) (j : ℕ) (hj : j ≠ a) :
    (reluM a s).2.heap j = s.heap j :=
  Function.update_noteq hj _ _

@[simp] lemma reluM_heap_same (a : ℕ) (s : St) :
    (reluM a s).2.heap a = reluT (s.heap a) :=
  Function.update_same _ _ _

@[simp] lemma addInPlaceM_fst (a b : ℕ) (s : St) : (addInPlaceM a b s).1 = a := rfl

@[simp] lemma addInPlaceM_next (a b : ℕ) (s : St) :
    (addInPlaceM a b s).2.next = s.next := rfl

lemma addInPlaceM_heap_ne (a b : ℕ) (s : St) (j : ℕ) (hj : j ≠ a) :
    (addInPlaceM a b s).2.heap j = s.heap j :=
  Function.update_noteq hj _ _

@[simp] lemma addInPlaceM_heap_same (a b : ℕ) (s : St) :
    (addInPlaceM a b s).2.heap a = addT (s.heap a) (s.heap b) :=
  Function.update_same _ _ _

@[simp] lemma addNewM_fst (a b : ℕ) (s : St) : (addNewM a b s).1 = s.next := rfl

@[simp] lemma addNewM_next (a b : ℕ) (s : St) : (addNewM a b s).2.next = s.next + 1 := rfl

lemma addNewM_heap_ne (a b : ℕ) (s : St) (j : ℕ) (hj : j ≠ s.next) :
    (addNewM a b s).2.heap j = s.heap j :=
  Function.update_noteq hj _ _

@[simp] lemma addNewM_heap_same (a b : ℕ) (s : St) :
    (addNewM a b s).2.heap s.next = addT (s.heap a) (s.heap b) :=
  Function.update_same _ _ _

/-! ### Store specifications of the blocks -/

lemma Conv2d.forwardM_conv_ok (cv : Conv2d) : MOk cv.forwardM cv.forward := by
  intro a s ha
  refine ⟨?_, ?_, ?_, ?_, ?_⟩
  · show s.next ≤ (allocT _ _).2.next
    rw [allocT_next]; omega
  · show s.next ≤ (allocT _ _).1
    rw [allocT_fst]
  · show (allocT _ _).1 < (allocT _ _).2.next
    rw [allocT_fst, allocT_next]; omega
  · intro j hj
    exact allocT_heap_ne _ _ _ (by omega)
  · show (allocT _ _).2.heap (allocT _ _).1 = _
    rw [allocT_fst, allocT_heap_same]

lemma ConvTranspose2d.forwardM_tconv_ok (cv : ConvTranspose2d) : MOk cv.forwardM cv.forward := by
  intro a s ha
  refine ⟨?_, ?_, ?_, ?_, ?_⟩
  · show s.next ≤ (allocT _ _).2.next
    rw [allocT_next]; omega
  · show s.next ≤ (allocT _ _).1
    rw [allocT_fst]
  · show (allocT _ _).1 < (allocT _ _).2.next
    rw [allocT_fst, allocT_next]; omega
  · intro j hj
    exact allocT_heap_ne _ _ _ (by omega)
  · show (allocT _ _).2.heap (allocT _ _).1 = _
    rw [allocT_fst, allocT_heap_same]

lemma CovSepBlock.forwardM_covsep_ok (cb : CovSepBlock) : MOk cb.forwardM cb.forward := by
  intro a s ha
  obtain ⟨n1, fr1, lt1, hf1, hv1⟩ := cb.dc.forwardM_conv_ok a s ha
  obtain ⟨n2, fr2, lt2, hf2, hv2⟩ :=
    cb.pc.forwardM_conv_ok (cb.dc.forwardM a s).1 (cb.dc.forwardM a s).2 lt1
  refine ⟨le_trans n1 n2, le_trans n1 fr2, lt2, ?_, ?_⟩
  · intro j hj
    exact (hf2 j (lt_of_lt_of_le hj n1)).trans (hf1 j hj)
  · show _ = cb.pc.forward (cb.dc.forward (s.heap a))
    rw [← hv1]
    exact hv2

lemma Upsampling.forwardM_up_ok (u : Upsampling) : MOk u.forwardM u.forward :=
  u.upsample.forwardM_tconv_ok

/-! ### Composition principles for store specifications -/

/-- Sequential composition of two specified blocks. -/
lemma MOk.comp {f1 f2 : ℕ → St → ℕ × St} {g1 g2 : Tensor → Tensor}
    (h1 : MOk f1 g1) (h2 : MOk f2 g2) :
    MOk (fun a s => f2 (f1 a s).1 (f1 a s).2) (fun t => g2 (g1 t)) := by
  intro a s ha
  obtain ⟨n1, fr1, lt1, hf1, hv1⟩ := h1 a s ha
  obtain ⟨n2, fr2, lt2, hf2, hv2⟩ := h2 (f1 a s).1 (f1 a s).2 lt1
  exact ⟨le_trans n1 n2, le_trans n1 fr2, lt2,
    fun j hj => (hf2 j (lt_of_lt_of_le hj n1)).trans (hf1 j hj),
    by rw [hv2, hv1]⟩

/-- In-place ReLU after a specified block: the mutation hits the block's
fresh result, so previously allocated ids stay intact. -/
lemma MOk.reluStep {f : ℕ → St → ℕ × St} {g : Tensor → Tensor} (h : MOk f g) :
    MOk (fun a s => reluM (f a s).1 (f a s).2) (fun t => reluT (g t)) := by
  intro a s ha
  obtain ⟨n1, fr1, lt1, hf1, hv1⟩ := h a s ha
  refine ⟨by simpa using n1, by simpa using fr1, by simpa using lt1, ?_, ?_⟩
  · intro j hj
    have hne : j ≠ (f a s).1 := by omega
    calc (reluM (f a s).1 (f a s).2).2.heap j
        = (f a s).2.heap j := reluM_heap_ne _ _ _ hne
      _ = s.heap j := hf1 j hj
  · show (reluM (f a s).1 (f a s).2).2.heap (reluM (f a s).1 (f a s).2).1 = _
    rw [reluM_fst, reluM_heap_same, hv1]

/-- In-place `x += branch` after a specified block, where `branch` is a
pre-existing id: the write hits the block's fresh result. -/
lemma MOk.addInPlaceBranch {f : ℕ → St → ℕ × St} {g : Tensor → Tensor} (h : MOk f g) :
    MOk2 (fun a b s => addInPlaceM (f a s).1 b (f a s).2)
      (fun t u => addT (g t) u) := by
  intro a b s ha hb
  obtain ⟨n1, fr1, lt1, hf1, hv1⟩ := h a s ha
  refine ⟨by simpa using n1, by simpa using fr1, by simpa using lt1, ?_, ?_⟩
  · intro j hj
    have hne : j ≠ (f a s).1 := by omega
    calc (addInPlaceM (f a s).1 b (f a s).2).2.heap j
        = (f a s).2.heap j := addInPlaceM_heap_ne _ _ _ _ hne
      _ = s.heap j := hf1 j hj
  · show (addInPlaceM (f a s).1 b (f a s).2).2.heap
        (addInPlaceM (f a s).1 b (f a s).2).1 = _
    rw [addInPlaceM_fst, addInPlaceM_heap_same, hv1, hf1 b hb]

/-- In-place ReLU after a specified two-input block. -/
lemma MOk2.reluStep2 {f : ℕ → ℕ → St → ℕ × St} {g : Tensor → Tensor → Tensor}
    (h : MOk2 f g) :
    MOk2 (fun a b s => reluM (f a b s).1 (f a b s).2) (fun t u => reluT (g t u)) := by
  intro a b s ha hb
  obtain ⟨n1, fr1, lt1, hf1, hv1⟩ := h a b s ha hb
  refine ⟨by simpa using n1, by simpa using fr1, by simpa using lt1, ?_, ?_⟩
  · intro j hj
    have hne : j ≠ (f a b s).1 := by omega
    calc (reluM (f a b s).1 (f a b s).2).2.heap j
        = (f a b s).2.heap j := reluM_heap_ne _ _ _ hne
      _ = s.heap j := hf1 j hj
  · show (reluM (f a b s).1 (f a b s).2).2.heap (reluM (f a b s).1 (f a b s).2).1 = _
    rw [reluM_fst, reluM_heap_same, hv1]

/-- Fresh add of a block result and the original (pre-existing) input:
`x + branch` in `Decoder.forward` and `output + img` in `SimpleNet.forward`. -/
lemma MOk.addNewWith {f : ℕ → St → ℕ × St} {g : Tensor → Tensor} (h : MOk f g) :
    MOk (fun a s => addNewM (f a s).1 a (f a s).2) (fun t => addT (g t) t) := by
  intro a s ha
  obtain ⟨n1, fr1, lt1, hf1, hv1⟩ := h a s ha
  refine ⟨?_, ?_, ?_, ?_, ?_⟩
  · show s.next ≤ (addNewM _ _ _).2.next
    rw [addNewM_next]; omega
  · show s.next ≤ (addNewM _ _ _).1
    rw [addNewM_fst]; omega
  · show (addNewM _ _ _).1 < (addNewM _ _ _).2.next
    rw [addNewM_fst, addNewM_next]; omega
  · intro j hj
    calc (addNewM (f a s).1 a (f a s).2).2.heap j
        = (f a s).2.heap j := addNewM_heap_ne _ _ _ _ (by omega)
      _ = s.heap j := hf1 j hj
  · show (addNewM (f a s).1 a (f a s).2).2.heap (addNewM (f a s).1 a (f a s).2).1 = _
    rw [addNewM_fst, addNewM_heap_same, hv1, hf1 a ha]

/-- Fresh add of a one-input block result and a second block run on another
pre-existing id afterwards (`Downsampling` and `DecoderStage` adds). -/
lemma MOk2.par {f q : ℕ → St → ℕ × St} {gf gq : Tensor → Tensor}
    (hf : MOk f gf) (hq : MOk q gq) :
    MOk2 (fun a b s => addNewM (f a s).1 (q b (f a s).2).1 (q b (f a s).2).2)
      (fun t u => addT (gf t) (gq u)) := by
  intro a b s ha hb
  obtain ⟨n1, fr1, lt1, hf1, hv1⟩ := hf a s ha
  obtain ⟨n2, fr2, lt2, hf2, hv2⟩ := hq b (f a s).2 (lt_of_lt_of_le hb n1)
  refine ⟨?_, ?_, ?_, ?_, ?_⟩
  · show s.next ≤ (addNewM _ _ _).2.next
    rw [addNewM_next]; omega
  · show s.next ≤ (addNewM _ _ _).1
    rw [addNewM_fst]; omega
  · show (addNewM _ _ _).1 < (addNewM _ _ _).2.next
    rw [addNewM_fst, addNewM_next]; omega
  · intro j hj
    calc (addNewM (f a s).1 (q b (f a s).2).1 (q b (f a s).2).2).2.heap j
        = (q b (f a s).2).2.heap j := addNewM_heap_ne _ _ _ _ (by omega)
      _ = (f a s).2.heap j := hf2 j (by omega)
      _ = s.heap j := hf1 j hj
  · show (addNewM (f a s).1 (q b (f a s).2).1 (q b (f a s).2).2).2.heap
        (addNewM (f a s).1 (q b (f a s).2).1 (q b (f a s).2).2).1 = _
    rw [addNewM_fst, addNewM_heap_same, hv2, hf1 b hb, hf2 (f a s).1 lt1, hv1]

/-- Running a two-input specified block with both inputs equal. -/
lemma MOk2.diag {f : ℕ → ℕ → St → ℕ × St} {g : Tensor → Tensor → Tensor}
    (h : MOk2 f g) : MOk (fun a s => f a a s) (fun t => g t t) := by
  intro a s ha
  exact h a a s ha ha

/-! ### Store specifications of the composite blocks -/

lemma Encoder.mainM_enc_ok (e : Encoder) :
    MOk e.mainM (fun t => e.sepconv2.forward (reluT (e.sepconv.forward t))) :=
  MOk.comp (MOk.reluStep e.sepconv.forwardM_covsep_ok) e.sepconv2.forwardM_covsep_ok

lemma Encoder.coreM_ok (e : Encoder) :
    MOk2 e.coreM
      (fun t u => reluT (addT (e.sepconv2.forward (reluT (e.sepconv.forward t))) u)) :=
  MOk2.reluStep2 (MOk.addInPlaceBranch e.mainM_enc_ok)

lemma Encoder.forwardM_enc_ok (e : Encoder) : MOk e.forwardM e.forward := by
  intro a s ha
  cases hp : e.proj with
  | none =>
    have key : e.forwardM a s = e.coreM a a s := by
      simp only [Encoder.forwardM, hp]
    obtain ⟨n1, fr1, lt1, hf1, hv1⟩ := e.coreM_ok a a s ha ha
    refine ⟨by rw [key]; exact n1, by rw [key]; exact fr1, by rw [key]; exact lt1,
      fun j hj => by rw [key]; exact hf1 j hj, ?_⟩
    rw [key, hv1]
    simp only [Encoder.forward, hp]
  | some pr =>
    have key : e.forwardM a s = e.coreM a (pr.forwardM a s).1 (pr.forwardM a s).2 := by
      simp only [Encoder.forwardM, hp]
    obtain ⟨nb, frb, ltb, hfb, hvb⟩ := pr.forwardM_covsep_ok a s ha
    obtain ⟨n1, fr1, lt1, hf1, hv1⟩ := e.coreM_ok a (pr.forwardM a s).1 (pr.forwardM a s).2
      (lt_of_lt_of_le ha nb) ltb
    refine ⟨by rw [key]; exact le_trans nb n1, by rw [key]; exact le_trans nb fr1,
      by rw [key]; exact lt1,
      fun j hj => by rw [key]; exact (hf1 j (lt_of_lt_of_le hj nb)).trans (hfb j hj), ?_⟩
    rw [key, hv1, hfb a ha, hvb]
    simp only [Encoder.forward, hp]

lemma Downsampling.mainM_down_ok (d : Downsampling) :
    MOk d.mainM (fun t => d.sepconv2.forward (reluT (d.sepconv.forward t))) :=
  MOk.comp (MOk.reluStep d.sepconv.forwardM_covsep_ok) d.sepconv2.forwardM_covsep_ok

lemma Downsampling.forwardM_down_ok (d : Downsampling) : MOk d.forwardM d.forward := by
  have h := MOk2.diag (MOk2.par d.mainM_down_ok d.branchconv.forwardM_covsep_ok)
  intro a s ha
  obtain ⟨h1, h2, h3, h4, h5⟩ := h a s ha
  exact ⟨h1, h2, h3, h4, h5⟩

lemma Decoder.mainM_dec_ok (d : Decoder) :
    MOk d.mainM (fun t => d.sepconv2.forward (reluT (d.sepconv.forward t))) :=
  MOk.comp (MOk.reluStep d.sepconv.forwardM_covsep_ok) d.sepconv2.forwardM_covsep_ok

lemma Decoder.forwardM_dec_ok (d : Decoder) : MOk d.forwardM d.forward :=
  MOk.addNewWith d.mainM_dec_ok

lemma DecoderStage.mainM_decstage_ok (st : DecoderStage) :
    MOk st.mainM (fun t => st.upsampling.forward (st.decoder.forward t)) :=
  MOk.comp st.decoder.forwardM_dec_ok st.upsampling.forwardM_up_ok

lemma DecoderStage.skipM_ok (st : DecoderStage) :
    MOk st.skipM (fun u => reluT (st.skipconnect.forward u)) :=
  MOk.reluStep st.skipconnect.forwardM_covsep_ok

lemma DecoderStage.forwardM_decstage_ok (st : DecoderStage) : MOk2 st.forwardM st.forward :=
  MOk2.par st.mainM_decstage_ok st.skipM_ok

/-- The encoder repetition loop only grows the store, returns a valid id
(the input itself when the count is zero, a fresh id otherwise), preserves
previously allocated ids, and computes the iterate of the pure encoder. -/
lemma encLoopM_ok (e : Encoder) (nIter a : ℕ) (s : St) (ha : a < s.next) :
    s.next ≤ (encLoopM e nIter a s).2.next ∧
      (encLoopM e nIter a s).1 < (encLoopM e nIter a s).2.next ∧
      ((encLoopM e nIter a s).1 = a ∨ s.next ≤ (encLoopM e nIter a s).1) ∧
      (∀ j, j < s.next → (encLoopM e nIter a s).2.heap j = s.heap j) ∧
      (encLoopM e nIter a s).2.heap (encLoopM e nIter a s).1 =
        (e.forward)^[nIter] (s.heap a) := by
  induction nIter generalizing a s with
  | zero => exact ⟨le_refl _, ha, Or.inl rfl, fun j _ => rfl, rfl⟩
  | succ m ih =>
    obtain ⟨n1, fr1, lt1, hf1, hv1⟩ := e.forwardM_enc_ok a s ha
    obtain ⟨nl, ltl, hdisj, hfl, hvl⟩ := ih (e.forwardM a s).1 (e.forwardM a s).2 lt1
    have key : encLoopM e (m + 1) a s =
        encLoopM e m (e.forwardM a s).1 (e.forwardM a s).2 := by
      simp only [encLoopM]
    refine ⟨by rw [key]; omega, by rw [key]; exact ltl, ?_, ?_, ?_⟩
    · rw [key]
      rcases hdisj with h | h
      · exact Or.inr (by omega)
      · exact Or.inr (by omega)
    · intro j hj
      rw [key]
      exact (hfl j (by omega)).trans (hf1 j hj)
    · rw [key, hvl, hv1, Function.iterate_succ_apply]

lemma EncoderStage.forwardM_encstage_ok (st : EncoderStage) : MOk st.forwardM st.forward := by
  intro a s ha
  obtain ⟨nd, frd, ltd, hfd, hvd⟩ := st.downsampling.forwardM_down_ok a s ha
  obtain ⟨nl, ltl, hdisj, hfl, hvl⟩ := encLoopM_ok st.encoder st.num
    (st.downsampling.forwardM a s).1 (st.downsampling.forwardM a s).2 ltd
  have key : st.forwardM a s =
      encLoopM st.encoder st.num (st.downsampling.forwardM a s).1
        (st.downsampling.forwardM a s).2 := by
    simp only [EncoderStage.forwardM]
  refine ⟨by rw [key]; omega, ?_, by rw [key]; exact ltl, ?_, ?_⟩
  · rw [key]
    rcases hdisj with h | h
    · omega
    · omega
  · intro j hj
    rw [key]
    exact (hfl j (by omega)).trans (hfd j hj)
  · rw [key, hvl, hvd]
    show _ = encLoop st.encoder st.num (st.downsampling.forward (s.heap a))
    rw [encLoop_eq_iterate]


/-- The tensor value `t` is live at id `r` in store `s'`. -/
abbrev liveAt (s' : St) (r : ℕ) (t : Tensor) : Prop :=
  r < s'.next ∧ s'.heap r = t

/-! ### The forward chain on the store, step by step.  Each lemma tracks the
store growth, the preservation of previously allocated ids, and the ids of
the intermediates that are still to be consumed by a later skip connection. -/

lemma SimpleNet.preM_live (n : SimpleNet) (a : ℕ) (s : St) (ha : a < s.next) :
    s.next ≤ (n.preM a s).2.next ∧
      (∀ j, j < s.next → (n.preM a s).2.heap j = s.heap j) ∧
      liveAt (n.preM a s).2 (n.preM a s).1 (n.pre (s.heap a)) := by
  obtain ⟨n1, fr1, lt1, hf1, hv1⟩ := n.conv.forwardM_conv_ok a s ha
  have key : n.preM a s = reluM (n.conv.forwardM a s).1 (n.conv.forwardM a s).2 := rfl
  rw [key]
  refine ⟨by rw [reluM_next]; exact n1, ?_, ?_, ?_⟩
  · intro j hj
    have hne : j ≠ (n.conv.forwardM a s).1 := by omega
    rw [reluM_heap_ne _ _ _ hne]
    exact hf1 j hj
  · rw [reluM_fst, reluM_next]
    exact lt1
  · rw [reluM_fst, reluM_heap_same, hv1]
    rfl

lemma SimpleNet.firstM_live (n : SimpleNet) (a : ℕ) (s : St) (ha : a < s.next) :
    s.next ≤ (n.firstM a s).2.next ∧
      (∀ j, j < s.next → (n.firstM a s).2.heap j = s.heap j) ∧
      liveAt (n.firstM a s).2 (n.preM a s).1 (n.pre (s.heap a)) ∧
      liveAt (n.firstM a s).2 (n.firstM a s).1 (n.first (s.heap a)) := by
  obtain ⟨np, hfp, ltp, hvp⟩ := n.preM_live a s ha
  obtain ⟨n1, fr1, lt1, hf1, hv1⟩ :=
    n.encoder_stage1.forwardM_encstage_ok (n.preM a s).1 (n.preM a s).2 ltp
  have key : n.firstM a s =
      n.encoder_stage1.forwardM (n.preM a s).1 (n.preM a s).2 := rfl
  rw [key]
  refine ⟨le_trans np n1, ?_, ⟨lt_of_lt_of_le ltp n1, (hf1 _ ltp).trans hvp⟩,
    lt1, ?_⟩
  · intro j hj
    exact (hf1 j (lt_of_lt_of_le hj np)).trans (hfp j hj)
  · rw [hv1, hvp]
    rfl

lemma SimpleNet.secondM_live (n : SimpleNet) (a : ℕ) (s : St) (ha : a < s.next) :
    s.next ≤ (n.secondM a s).2.next ∧
      (∀ j, j < s.next → (n.secondM a s).2.heap j = s.heap j) ∧
      liveAt (n.secondM a s).2 (n.preM a s).1 (n.pre (s.heap a)) ∧
      liveAt (n.secondM a s).2 (n.firstM a s).1 (n.first (s.heap a)) ∧
      liveAt (n.secondM a s).2 (n.secondM a s).1 (n.second (s.heap a)) := by
  obtain ⟨np, hfp, ⟨ltp, hvp⟩, ⟨ltf, hvf⟩⟩ := n.firstM_live a s ha
  obtain ⟨n1, fr1, lt1, hf1, hv1⟩ :=
    n.encoder_stage2.forwardM_encstage_ok (n.firstM a s).1 (n.firstM a s).2 ltf
  have key : n.secondM a s =
      n.encoder_stage2.forwardM (n.firstM a s).1 (n.firstM a s).2 := rfl
  rw [key]
  refine ⟨le_trans np n1, ?_, ⟨lt_of_lt_of_le ltp n1, (hf1 _ ltp).trans hvp⟩,
    ⟨lt_of_lt_of_le ltf n1, (hf1 _ ltf).trans hvf⟩, lt1, ?_⟩
  · intro j hj
    exact (hf1 j (lt_of_lt_of_le hj np)).trans (hfp j hj)
  · rw [hv1, hvf]
    rfl

lemma SimpleNet.thirdM_live (n : SimpleNet) (a : ℕ) (s : St) (ha : a < s.next) :
    s.next ≤ (n.thirdM a s).2.next ∧
      (∀ j, j < s.next → (n.thirdM a s).2.heap j = s.heap j) ∧
      liveAt (n.thirdM a s).2 (n.preM a s).1 (n.pre (s.heap a)) ∧
      liveAt (n.thirdM a s).2 (n.firstM a s).1 (n.first (s.heap a)) ∧
      liveAt (n.thirdM a s).2 (n.secondM a s).1 (n.second (s.heap a)) ∧
      liveAt (n.thirdM a s).2 (n.thirdM a s).1 (n.third (s.heap a)) := by
  obtain ⟨np, hfp, ⟨ltp, hvp⟩, ⟨ltf, hvf⟩, ⟨lts, hvs⟩⟩ := n.secondM_live a s ha
  obtain ⟨n1, fr1, lt1, hf1, hv1⟩ :=
    n.encoder_stage3.forwardM_encstage_ok (n.secondM a s).1 (n.secondM a s).2 lts
  have key : n.thirdM a s =
      n.encoder_stage3.forwardM (n.secondM a s).1 (n.secondM a s).2 := rfl
  rw [key]
  refine ⟨le_trans np n1, ?_, ⟨lt_of_lt_of_le ltp n1, (hf1 _ ltp).trans hvp⟩,
    ⟨lt_of_lt_of_le ltf n1, (hf1 _ ltf).trans hvf⟩,
    ⟨lt_of_lt_of_le lts n1, (hf1 _ lts).trans hvs⟩, lt1, ?_⟩
  · intro j hj
    exact (hf1 j (lt_of_lt_of_le hj np)).trans (hfp j hj)
  · rw [hv1, hvs]
    rfl

lemma SimpleNet.fourthM_live (n : SimpleNet) (a : ℕ) (s : St) (ha : a < s.next) :
    s.next ≤ (n.fourthM a s).2.next ∧
      (∀ j, j < s.next → (n.fourthM a s).2.heap j = s.heap j) ∧
      liveAt (n.fourthM a s).2 (n.preM a s).1 (n.pre (s.heap a)) ∧
      liveAt (n.fourthM a s).2 (n.firstM a s).1 (n.first (s.heap a)) ∧
      liveAt (n.fourthM a s).2 (n.secondM a s).1 (n.second (s.heap a)) ∧
      liveAt (n.fourthM a s).2 (n.thirdM a s).1 (n.third (s.heap a)) ∧
      liveAt (n.fourthM a s).2 (n.fourthM a s).1 (n.fourth (s.heap a)) := by
  obtain ⟨np, hfp, ⟨ltp, hvp⟩, ⟨ltf, hvf⟩, ⟨lts, hvs⟩, ⟨ltt, hvt⟩⟩ := n.thirdM_live a s ha
  obtain ⟨n1, fr1, lt1, hf1, hv1⟩ :=
    n.encoder_stage4.forwardM_encstage_ok (n.thirdM a s).1 (n.thirdM a s).2 ltt
  have key : n.fourthM a s =
      n.encoder_stage4.forwardM (n.thirdM a s).1 (n.thirdM a s).2 := rfl
  rw [key]
  refine ⟨le_trans np n1, ?_, ⟨lt_of_lt_of_le ltp n1, (hf1 _ ltp).trans hvp⟩,
    ⟨lt_of_lt_of_le ltf n1, (hf1 _ ltf).trans hvf⟩,
    ⟨lt_of_lt_of_le lts n1, (hf1 _ lts).trans hvs⟩,
    ⟨lt_of_lt_of_le ltt n1, (hf1 _ ltt).trans hvt⟩, lt1, ?_⟩
  · intro j hj
    exact (hf1 j (lt_of_lt_of_le hj np)).trans (hfp j hj)
  · rw [hv1, hvt]
    rfl

lemma SimpleNet.deFirstM_live (n : SimpleNet) (a : ℕ) (s : St) (ha : a < s.next) :
    s.next ≤ (n.deFirstM a s).2.next ∧
      (∀ j, j < s.next → (n.deFirstM a s).2.heap j = s.heap j) ∧
      liveAt (n.deFirstM a s).2 (n.preM a s).1 (n.pre (s.heap a)) ∧
      liveAt (n.deFirstM a s).2 (n.firstM a s).1 (n.first (s.heap a)) ∧
      liveAt (n.deFirstM a s).2 (n.secondM a s).1 (n.second (s.heap a)) ∧
      liveAt (n.deFirstM a s).2 (n.deFirstM a s).1 (n.deFirst (s.heap a)) := by
  obtain ⟨np, hfp, ⟨ltp, hvp⟩, ⟨ltf, hvf⟩, ⟨lts, hvs⟩, ⟨ltt, hvt⟩, ⟨lt4, hv4⟩⟩ :=
    n.fourthM_live a s ha
  obtain ⟨n1, fr1, lt1, hf1, hv1⟩ :=
    n.decoder_stage1.forwardM_decstage_ok (n.fourthM a s).1 (n.thirdM a s).1 (n.fourthM a s).2
      lt4 ltt
  have key : n.deFirstM a s =
      n.decoder_stage1.forwardM (n.fourthM a s).1 (n.thirdM a s).1 (n.fourthM a s).2 := rfl
  rw [key]
  refine ⟨le_trans np n1, ?_, ⟨lt_of_lt_of_le ltp n1, (hf1 _ ltp).trans hvp⟩,
    ⟨lt_of_lt_of_le ltf n1, (hf1 _ ltf).trans hvf⟩,
    ⟨lt_of_lt_of_le lts n1, (hf1 _ lts).trans hvs⟩, lt1, ?_⟩
  · intro j hj
    exact (hf1 j (lt_of_lt_of_le hj np)).trans (hfp j hj)
  · rw [hv1, hv4, hvt]
    rfl

lemma SimpleNet.deSecondM_live (n : SimpleNet) (a : ℕ) (s : St) (ha : a < s.next) :
    s.next ≤ (n.deSecondM a s).2.next ∧
      (∀ j, j < s.next → (n.deSecondM a s).2.heap j = s.heap j) ∧
      liveAt (n.deSecondM a s).2 (n.preM a s).1 (n.pre (s.heap a)) ∧
      liveAt (n.deSecondM a s).2 (n.firstM a s).1 (n.first (s.heap a)) ∧
      liveAt (n.deSecondM a s).2 (n.deSecondM a s).1 (n.deSecond (s.heap a)) := by
  obtain ⟨np, hfp, ⟨ltp, hvp⟩, ⟨ltf, hvf⟩, ⟨lts, hvs⟩, ⟨ltd, hvd⟩⟩ :=
    n.deFirstM_live a s ha
  obtain ⟨n1, fr1, lt1, hf1, hv1⟩ :=
    n.decoder_stage2.forwardM_decstage_ok (n.deFirstM a s).1 (n.secondM a s).1 (n.deFirstM a s).2
      ltd lts
  have key : n.deSecondM a s =
      n.decoder_stage2.forwardM (n.deFirstM a s).1 (n.secondM a s).1
        (n.deFirstM a s).2 := rfl
  rw [key]
  refine ⟨le_trans np n1, ?_, ⟨lt_of_lt_of_le ltp n1, (hf1 _ ltp).trans hvp⟩,
    ⟨lt_of_lt_of_le ltf n1, (hf1 _ ltf).trans hvf⟩, lt1, ?_⟩
  · intro j hj
    exact (hf1 j (lt_of_lt_of_le hj np)).trans (hfp j hj)
  · rw [hv1, hvd, hvs]
    rfl

lemma SimpleNet.deThirdM_live (n : SimpleNet) (a : ℕ) (s : St) (ha : a < s.next) :
    s.next ≤ (n.deThirdM a s).2.next ∧
      (∀ j, j < s.next → (n.deThirdM a s).2.heap j = s.heap j) ∧
      liveAt (n.deThirdM a s).2 (n.preM a s).1 (n.pre (s.heap a)) ∧
      liveAt (n.deThirdM a s).2 (n.deThirdM a s).1 (n.deThird (s.heap a)) := by
  obtain ⟨np, hfp, ⟨ltp, hvp⟩, ⟨ltf, hvf⟩, ⟨ltd, hvd⟩⟩ := n.deSecondM_live a s ha
  obtain ⟨n1, fr1, lt1, hf1, hv1⟩ :=
    n.decoder_stage3.forwardM_decstage_ok (n.deSecondM a s).1 (n.firstM a s).1 (n.deSecondM a s).2
      ltd ltf
  have key : n.deThirdM a s =
      n.decoder_stage3.forwardM (n.deSecondM a s).1 (n.firstM a s).1
        (n.deSecondM a s).2 := rfl
  rw [key]
  refine ⟨le_trans np n1, ?_, ⟨lt_of_lt_of_le ltp n1, (hf1 _ ltp).trans hvp⟩, lt1, ?_⟩
  · intro j hj
    exact (hf1 j (lt_of_lt_of_le hj np)).trans (hfp j hj)
  · rw [hv1, hvd, hvf]
    rfl

lemma SimpleNet.deFourthM_live (n : SimpleNet) (a : ℕ) (s : St) (ha : a < s.next) :
    s.next ≤ (n.deFourthM a s).2.next ∧
      (∀ j, j < s.next → (n.deFourthM a s).2.heap j = s.heap j) ∧
      liveAt (n.deFourthM a s).2 (n.deFourthM a s).1 (n.deFourth (s.heap a)) := by
  obtain ⟨np, hfp, ⟨ltp, hvp⟩, ⟨ltd, hvd⟩⟩ := n.deThirdM_live a s ha
  obtain ⟨n1, fr1, lt1, hf1, hv1⟩ :=
    n.decoder_stage4.forwardM_decstage_ok (n.deThirdM a s).1 (n.preM a s).1 (n.deThirdM a s).2
      ltd ltp
  have key : n.deFourthM a s =
      n.decoder_stage4.forwardM (n.deThirdM a s).1 (n.preM a s).1
        (n.deThirdM a s).2 := rfl
  rw [key]
  refine ⟨le_trans np n1, ?_, lt1, ?_⟩
  · intro j hj
    exact (hf1 j (lt_of_lt_of_le hj np)).trans (hfp j hj)
  · rw [hv1, hvd, hvp]
    rfl

lemma SimpleNet.outputM_live (n : SimpleNet) (a : ℕ) (s : St) (ha : a < s.next) :
    s.next ≤ (n.outputM a s).2.next ∧
      (∀ j, j < s.next → (n.outputM a s).2.heap j = s.heap j) ∧
      liveAt (n.outputM a s).2 (n.outputM a s).1 (n.outputT (s.heap a)) := by
  obtain ⟨np, hfp, ⟨ltd, hvd⟩⟩ := n.deFourthM_live a s ha
  obtain ⟨n1, fr1, lt1, hf1, hv1⟩ :=
    n.output_decoder.forwardM_dec_ok (n.deFourthM a s).1 (n.deFourthM a s).2 ltd
  obtain ⟨n2, fr2, lt2, hf2, hv2⟩ :=
    n.output_conv.forwardM_conv_ok
      (n.output_decoder.forwardM (n.deFourthM a s).1 (n.deFourthM a s).2).1
      (n.output_decoder.forwardM (n.deFourthM a s).1 (n.deFourthM a s).2).2 lt1
  have key : n.outputM a s =
      n.output_conv.forwardM
        (n.output_decoder.forwardM (n.deFourthM a s).1 (n.deFourthM a s).2).1
        (n.output_decoder.forwardM (n.deFourthM a s).1 (n.deFourthM a s).2).2 := rfl
  rw [key]
  refine ⟨le_trans np (le_trans n1 n2), ?_, lt2, ?_⟩
  · intro j hj
    exact ((hf2 j (lt_of_lt_of_le (lt_of_lt_of_le hj np) n1)).trans
      (hf1 j (lt_of_lt_of_le hj np))).trans (hfp j hj)
  · rw [hv2, hv1, hvd]
    rfl

/-- The full forward pass on the store: it only grows the store, allocates a
fresh result, leaves every previously allocated id (in particular the input
image) untouched, and the result value is the pure `SimpleNet.forward` of the
input value. -/
lemma SimpleNet.forwardM_spec (n : SimpleNet) (a : ℕ) (s : St) (ha : a < s.next) :
    s.next ≤ (n.forwardM a s).2.next ∧ s.next ≤ (n.forwardM a s).1 ∧
      (n.forwardM a s).1 < (n.forwardM a s).2.next ∧
      (∀ j, j < s.next → (n.forwardM a s).2.heap j = s.heap j) ∧
      (n.forwardM a s).2.heap (n.forwardM a s).1 = n.forward (s.heap a) := by
  obtain ⟨np, hfp, ⟨ltO, hvO⟩⟩ := n.outputM_live a s ha
  have key : n.forwardM a s = addNewM (n.outputM a s).1 a (n.outputM a s).2 := rfl
  rw [key]
  refine ⟨?_, ?_, ?_, ?_, ?_⟩
  · rw [addNewM_next]; omega
  · rw [addNewM_fst]; omega
  · rw [addNewM_fst, addNewM_next]; omega
  · intro j hj
    rw [addNewM_heap_ne _ _ _ _ (by omega)]
    exact hfp j hj
  · rw [addNewM_fst, addNewM_heap_same, hvO, hfp a ha]
    rfl

/-- A concrete store holding `testImg` at id 0. -/
def testSt : St := ⟨fun _ => testImg, 1⟩

/-- C10: implicit frame property: `SimpleNet.forward` leaves its input tensor
unchanged — although the ReLU activations are constructed as in-place
operations, every in-place mutation targets a freshly computed intermediate
tensor (never the caller's input), and the final `output + img` is
non-destructive (it allocates a fresh result), so the input image tensor is
identical before and after a forward call. -/
theorem SimpleNet.forward_preserves_input (n : SimpleNet) (a : ℕ) (s : St)
    (ha : a < s.next) :
    (n.forwardM a s).2.heap a = s.heap a ∧ s.next ≤ (n.forwardM a s).1 := by
  obtain ⟨n1, fr1, lt1, hf1, hv1⟩ := n.forwardM_spec a s ha
  exact ⟨hf1 a ha, fr1⟩

/-- Witness for C10: a forward run over a concrete one-tensor store. -/
theorem SimpleNet.forward_preserves_input_witness :
    (0 : ℕ) < testSt.next ∧
      (((SimpleNet.init zeroNetW).forwardM 0 testSt).2.heap 0 = testSt.heap 0 ∧
        testSt.next ≤ ((SimpleNet.init zeroNetW).forwardM 0 testSt).1) :=
  ⟨by decide,
    SimpleNet.forward_preserves_input (SimpleNet.init zeroNetW) 0 testSt (by decide)⟩

/-- C9: determinism: with fixed weights every block is a pure deterministic
function of its input — two store-level evaluations of a `CovSepBlock` (or of
the whole `SimpleNet.forward`) on equal input tensor values produce equal
output tensor values regardless of the surrounding store, and the result of
the net equals the pure function `SimpleNet.forward` of the input value (so
there is no side effect beyond the deterministic tensor transformation). -/
theorem forward_deterministic (cb : CovSepBlock) (n : SimpleNet)
    (a1 : ℕ) (s1 : St) (a2 : ℕ) (s2 : St)
    (h1 : a1 < s1.next) (h2 : a2 < s2.next) (heq : s1.heap a1 = s2.heap a2) :
    (cb.forwardM a1 s1).2.heap (cb.forwardM a1 s1).1 =
        (cb.forwardM a2 s2).2.heap (cb.forwardM a2 s2).1 ∧
      (n.forwardM a1 s1).2.heap (n.forwardM a1 s1).1 =
        (n.forwardM a2 s2).2.heap (n.forwardM a2 s2).1 ∧
      (n.forwardM a1 s1).2.heap (n.forwardM a1 s1).1 = n.forward (s1.heap a1) := by
  obtain ⟨-, -, -, -, hc1⟩ := cb.forwardM_covsep_ok a1 s1 h1
  obtain ⟨-, -, -, -, hc2⟩ := cb.forwardM_covsep_ok a2 s2 h2
  obtain ⟨-, -, -, -, hn1⟩ := n.forwardM_spec a1 s1 h1
  obtain ⟨-, -, -, -, hn2⟩ := n.forwardM_spec a2 s2 h2
  exact ⟨by rw [hc1, hc2, heq], by rw [hn1, hn2, heq], hn1⟩

/-- Witness for C9: two identical runs over a concrete one-tensor store. -/
theorem forward_deterministic_witness :
    (0 : ℕ) < testSt.next ∧ testSt.heap 0 = testSt.heap 0 ∧
      (((CovSepBlock.init 4 4 zeroCovSepW 3 1 1).forwardM 0 testSt).2.heap
            ((CovSepBlock.init 4 4 zeroCovSepW 3 1 1).forwardM 0 testSt).1 =
          ((CovSepBlock.init 4 4 zeroCovSepW 3 1 1).forwardM 0 testSt).2.heap
            ((CovSepBlock.init 4 4 zeroCovSepW 3 1 1).forwardM 0 testSt).1 ∧
        ((SimpleNet.init zeroNetW).forwardM 0 testSt).2.heap
            ((SimpleNet.init zeroNetW).forwardM 0 testSt).1 =
          ((SimpleNet.init zeroNetW).forwardM 0 testSt).2.heap
            ((SimpleNet.init zeroNetW).forwardM 0 testSt).1 ∧
        ((SimpleNet.init zeroNetW).forwardM 0 testSt).2.heap
            ((SimpleNet.init zeroNetW).forwardM 0 testSt).1 =
          (SimpleNet.init zeroNetW).forward (testSt.heap 0)) :=
  ⟨by decide, rfl,
    forward_deterministic (CovSepBlock.init 4 4 zeroCovSepW 3 1 1)
      (SimpleNet.init zeroNetW) 0 testSt 0 testSt (by decide) (by decide) rfl⟩
